import Mathlib

/-!
# lyaml: the event encoder (emitter.c) and the event decoder (parser.c)

A shallow embedding of the two C sources of the binding between Lua event
tables and the libfyaml streaming engine, followed by theorems about it.

Conventions of the embedding

* A Lua string is a finite sequence of bytes; it is represented by a `String`
  whose characters stand for the bytes, the character with code 0 being the
  zero byte.  `cstr` gives the C string a `char *` to those bytes denotes.
* The libfyaml engine is external.  On the encoder side it is a function
  `fy : σ → FyEmitEvent → Int × List String × σ` (return code, the chunks it
  hands to the output callback during the call, next engine state); on the
  decoder side it is a function `fy_parser_parse : π → Option fy_event × π`.
* A C variable that is read without having been written is represented by
  `CVar.indeterminate`.
* The event table given to `emit` holds, for every field, either nothing
  (nil) or a value of the type the event schema gives to that field.
* The two counters of type int, `error` and `document_count`, are counted
  without overflow: the statements are about runs with fewer than 2^31 errors
  and fewer than 2^31 DOCUMENT_START events.
-/

namespace Lyaml

/-! ## C strings -/

/-- The zero byte. -/
def NUL : Char := Char.ofNat 0

/-- The C string denoted by a pointer to the bytes of `s`: the bytes before
the first zero byte. -/
def cstr (s : String) : String := String.mk (s.data.takeWhile (fun c => c != NUL))

/-- The libc function: a fresh copy of the C string at `s`. -/
def strdup (s : String) : String := cstr s

/-- The libc function: the number of bytes before the first zero byte. -/
def strlen (s : String) : Nat := (cstr s).length

/-- Modelled from the spec: the macro STREQ of lyaml.h, which is not among the
sources; equality of two C strings (exact, case-sensitive match). -/
def STREQ (a b : String) : Bool := decide (cstr a = cstr b)

/-- A C variable: either never written (its value is indeterminate) or
holding a value. -/
inductive CVar (α : Type) where
  | indeterminate : CVar α
  | init (a : α) : CVar α
  deriving DecidableEq, Repr

/-! ## The event table read by the encoder -/

/-- A key of a Lua table. -/
inductive LuaKey where
  | int (n : Int)
  | str (s : String)
  deriving DecidableEq, Repr

/-- The table at key version_directive. -/
structure VersionDirective where
  major : Option Int := none
  minor : Option Int := none
  deriving DecidableEq, Repr

/-- One element of the table at key tag_directives (the field called prefix
in the source is `pfx` here, prefix being a reserved word). -/
structure TagDirective where
  handle : Option String := none
  pfx : Option String := none
  deriving DecidableEq, Repr

/-- The event table: every field is absent (`none`) or present. The entries
of tag_directives are listed in the order lua_next visits them. -/
structure EventTable where
  type : Option String := none
  encoding : Option String := none
  style : Option String := none
  anchor : Option String := none
  tag : Option String := none
  value : Option String := none
  implicit : Option Bool := none
  plain_implicit : Option Bool := none
  quoted_implicit : Option Bool := none
  version_directive : Option VersionDirective := none
  tag_directives : Option (List (LuaKey × TagDirective)) := none
  deriving DecidableEq, Repr

/-- Auxiliary for `lua_objlen`: extend the border `n` while key `n + 1` is present. -/
def lua_objlen_from (keys : List LuaKey) : Nat → Nat → Nat
  | 0, n => n
  | fuel + 1, n => if LuaKey.int (n + 1) ∈ keys then lua_objlen_from keys fuel (n + 1) else n

/-- The Lua API function on a table: a border of the table, here the number of
consecutive integer keys 1, 2, ... that are present. -/
def lua_objlen {α : Type} (t : List (LuaKey × α)) : Nat :=
  lua_objlen_from (t.map Prod.fst) t.length 0

/-! ## The engine interface of the encoder -/

inductive fy_node_style where
  | FYNS_ANY
  | FYNS_FLOW
  | FYNS_BLOCK
  | other (n : Int)
  deriving DecidableEq, Repr

inductive fy_scalar_style where
  | FYSS_ANY
  | FYSS_PLAIN
  | FYSS_SINGLE_QUOTED
  | FYSS_DOUBLE_QUOTED
  | FYSS_LITERAL
  | FYSS_FOLDED
  | other (n : Int)
  deriving DecidableEq, Repr

structure fy_version where
  major : Int
  minor : Int
  deriving DecidableEq, Repr

/-- One entry of the array tag_directives of emit_DOCUMENT_START: copies of
the C strings held by the variables handle and prefix. -/
structure fy_tag where
  handle : CVar String
  pfx : CVar String
  deriving DecidableEq, Repr

/-- A length argument of the engine: the constant FY_NT (the text ends at
the first zero byte) or a byte count. -/
inductive fy_size where
  | FY_NT
  | len (n : Nat)
  deriving DecidableEq, Repr

/-- The bytes the engine reads from a pointer to the bytes of `p` with
length argument `n`. -/
def fy_text (p : String) : fy_size → String
  | fy_size.FY_NT => cstr p
  | fy_size.len n => String.mk (p.data.take n)

/-- The arguments of one call of fy_emit_event_create, whose result is handed
to fy_emit_event. A pointer argument is `none` when it is NULL. -/
inductive FyEmitEvent where
  | STREAM_START
  | STREAM_END
  | DOCUMENT_START (implicit : Bool) (version : Option fy_version)
      (tags : Option (List fy_tag))
  | DOCUMENT_END (implicit : Bool)
  | MAPPING_START (style : CVar fy_node_style) (anchor tag : Option String)
  | MAPPING_END
  | SEQUENCE_START (style : CVar fy_node_style) (anchor tag : Option String)
  | SEQUENCE_END
  | SCALAR (style : CVar fy_scalar_style) (value : CVar String) (len : fy_size)
      (anchor tag : Option String)
  | ALIAS (anchor : CVar String) (len : fy_size)
  deriving DecidableEq, Repr

/-- The encoder object. The fields emitter, yamlbuff, errbuff and error are
those of the C struct; `submitted` and `written` are observation variables: the
events handed to fy_emit_event and the chunks handed to append_output, in
order, since the emitter was created. -/
structure lyaml_emitter (σ : Type) where
  emitter : σ
  yamlbuff : String
  errbuff : String
  error : Nat
  submitted : List FyEmitEvent
  written : List String

/-- What a call of emit does: return the single value true, return true and
the text, return false and a message, or fail the assertion
emitter->error == 1 (the process is aborted). -/
inductive EmitReturn where
  | ok
  | okText (text : String)
  | fail (message : String)
  | assertFailed
  deriving DecidableEq, Repr

section Emitter

variable {σ : Type}

/-- The output callback: appends the chunk to the output accumulator. -/
def append_output (em : lyaml_emitter σ) (str : String) : lyaml_emitter σ :=
  { em with yamlbuff := em.yamlbuff ++ str, written := em.written ++ [str] }

/-- The engine call fy_emit_event (emitter, fy_emit_event_create (emitter, ...)):
the engine `fy` consumes the event, hands its chunks to append_output and
returns its code. -/
def fy_emit_event (fy : σ → FyEmitEvent → Int × List String × σ)
    (em : lyaml_emitter σ) (ev : FyEmitEvent) : Int × lyaml_emitter σ :=
  let r := fy em.emitter ev
  (r.1, r.2.1.foldl append_output
    { em with emitter := r.2.2, submitted := em.submitted ++ [ev] })

/-- The recurring statement pair emitter->error++; luaL_add... (errbuff, msg). -/
def add_error (em : lyaml_emitter σ) (msg : String) : lyaml_emitter σ :=
  { em with error := em.error + 1, errbuff := em.errbuff ++ msg }

/-- Modelled from the spec: the macro ERROR_IFNIL of lyaml.h, which is not among
the sources; when the value just read is nil, a MissingField error with the
given message is recorded. -/
def ERROR_IFNIL (isnil : Bool) (msg : String) (em : lyaml_emitter σ) : lyaml_emitter σ :=
  if isnil then add_error em msg else em

/-- Modelled from the spec: the macro RAWGET_STRDUP of lyaml.h, which is not
among the sources; the variable stays NULL when the field is nil and receives
a strdup copy of the field otherwise. -/
def RAWGET_STRDUP (field : Option String) : Option String := field.map strdup

/-- Modelled from the spec: the macro RAWGET_YAML_CHARP of lyaml.h, which is not
among the sources; the variable keeps its value when the field is nil and
receives a pointer to the bytes of the field otherwise. -/
def RAWGET_YAML_CHARP {α : Type} (var : α) (ptr : String → α) (field : Option String) : α :=
  match field with
  | none => var
  | some s => ptr s

/-- Modelled from the spec: the macro RAWGET_BOOLEAN of lyaml.h, which is not
among the sources; the variable keeps its value when the field is nil. -/
def RAWGET_BOOLEAN (var : Bool) (field : Option Bool) : Bool := field.getD var

/-- Modelled from the spec: the macro RAWGETS_INTEGER of lyaml.h, which is not
among the sources; the variable keeps its value when the key is nil. -/
def RAWGETS_INTEGER (var : Int) (field : Option Int) : Int := field.getD var

/-- Emit a STREAM_START event. -/
def emit_STREAM_START (fy : σ → FyEmitEvent → Int × List String × σ)
    (t : EventTable) (em : lyaml_emitter σ) : Int × lyaml_emitter σ :=
  let encoding := RAWGET_STRDUP t.encoding
  let em1 :=
    match encoding with
    | some e =>
      if !STREQ e "UTF8" then add_error em ("invalid stream encoding '" ++ e ++ "'") else em
    | none => em
  if em1.error ≠ 0 then (-1, em1)
  else fy_emit_event fy em1 FyEmitEvent.STREAM_START

/-- Emit a STREAM_END event. -/
def emit_STREAM_END (fy : σ → FyEmitEvent → Int × List String × σ)
    (_t : EventTable) (em : lyaml_emitter σ) : Int × lyaml_emitter σ :=
  fy_emit_event fy em FyEmitEvent.STREAM_END

/-- The state of the loop over the entries of tag_directives: the emitter, the
variables handle and prefix, and the entries written so far (entry number i
of the arrays is the i-th element of `tags`, counting from 0). -/
structure TagLoop (σ : Type) where
  em : lyaml_emitter σ
  handle : CVar String
  pfx : CVar String
  tags : List fy_tag

/-- One iteration of the loop of emit_DOCUMENT_START over tag_directives. -/
def tag_directives_step (st : TagLoop σ) (entry : LuaKey × TagDirective) : TagLoop σ :=
  let handle := RAWGET_YAML_CHARP st.handle CVar.init entry.2.handle
  let em1 := ERROR_IFNIL entry.2.handle.isNone "tag_directives item missing key 'handle'" st.em
  let handlea : CVar String :=
    match handle with
    | CVar.init h => CVar.init (cstr h)
    | CVar.indeterminate => CVar.indeterminate
  let pfx := RAWGET_YAML_CHARP st.pfx CVar.init entry.2.pfx
  let em2 := ERROR_IFNIL entry.2.pfx.isNone "tag_directives item missing key 'prefix'" em1
  let prefixa : CVar String :=
    match pfx with
    | CVar.init p => CVar.init (cstr p)
    | CVar.indeterminate => CVar.indeterminate
  { em := em2, handle := handle, pfx := pfx,
    tags := st.tags ++ [{ handle := handlea, pfx := prefixa }] }

/-- The sizes given to alloca for the arrays tag_directivesp and
tag_directives, in elements. -/
def tag_directives_alloca (entries : List (LuaKey × TagDirective)) : Nat × Nat :=
  let tag_count := lua_objlen entries
  (tag_count + 1, tag_count)

/-- Emit a DOCUMENT_START event. -/
def emit_DOCUMENT_START (fy : σ → FyEmitEvent → Int × List String × σ)
    (t : EventTable) (em : lyaml_emitter σ) : Int × lyaml_emitter σ :=
  let vd : Option fy_version × lyaml_emitter σ :=
    match t.version_directive with
    | none => (none, em)
    | some v =>
      let major := RAWGETS_INTEGER 0 v.major
      let em1 := ERROR_IFNIL v.major.isNone "version_directive missing key 'major'" em
      if em1.error = 0 then
        let minor := RAWGETS_INTEGER 0 v.minor
        let em2 := ERROR_IFNIL v.minor.isNone "version_directive missing key 'minor'" em1
        (some { major := major, minor := minor }, em2)
      else
        (some { major := major, minor := 0 }, em1)
  let td : Option (List fy_tag) × lyaml_emitter σ :=
    match t.tag_directives with
    | none => (none, vd.2)
    | some entries =>
      let st := entries.foldl tag_directives_step
        { em := vd.2, handle := CVar.indeterminate, pfx := CVar.indeterminate, tags := [] }
      (some st.tags, st.em)
  let implicit := RAWGET_BOOLEAN true t.implicit
  if td.2.error ≠ 0 then (0, td.2)
  else fy_emit_event fy td.2 (FyEmitEvent.DOCUMENT_START implicit vd.1 td.1)

/-- Emit a DOCUMENT_END event. -/
def emit_DOCUMENT_END (fy : σ → FyEmitEvent → Int × List String × σ)
    (t : EventTable) (em : lyaml_emitter σ) : Int × lyaml_emitter σ :=
  let implicit := RAWGET_BOOLEAN false t.implicit
  fy_emit_event fy em (FyEmitEvent.DOCUMENT_END implicit)

/-- The style selection of emit_MAPPING_START (source lines 183 to 195): the
value of yaml_style and the emitter afterwards. -/
def emit_MAPPING_START_style (t : EventTable) (em : lyaml_emitter σ) :
    CVar fy_node_style × lyaml_emitter σ :=
  match RAWGET_STRDUP t.style with
  | none => (CVar.init fy_node_style.FYNS_ANY, em)
  | some style =>
    if STREQ style "BLOCK" then (CVar.init fy_node_style.FYNS_BLOCK, em)
    else if STREQ style "FLOW" then (CVar.init fy_node_style.FYNS_FLOW, em)
    else (CVar.indeterminate, add_error em ("invalid mapping style '" ++ style ++ "'"))

/-- Emit a MAPPING_START event. -/
def emit_MAPPING_START (fy : σ → FyEmitEvent → Int × List String × σ)
    (t : EventTable) (em : lyaml_emitter σ) : Int × lyaml_emitter σ :=
  let s := emit_MAPPING_START_style t em
  let anchor : Option String := RAWGET_YAML_CHARP none some t.anchor
  let tag : Option String := RAWGET_YAML_CHARP none some t.tag
  let _implicit := RAWGET_BOOLEAN true t.implicit
  fy_emit_event fy s.2 (FyEmitEvent.MAPPING_START s.1 anchor tag)

/-- Emit a MAPPING_END event. -/
def emit_MAPPING_END (fy : σ → FyEmitEvent → Int × List String × σ)
    (_t : EventTable) (em : lyaml_emitter σ) : Int × lyaml_emitter σ :=
  fy_emit_event fy em FyEmitEvent.MAPPING_END

/-- The style selection of emit_SEQUENCE_START (source lines 227 to 239). -/
def emit_SEQUENCE_START_style (t : EventTable) (em : lyaml_emitter σ) :
    CVar fy_node_style × lyaml_emitter σ :=
  match RAWGET_STRDUP t.style with
  | none => (CVar.init fy_node_style.FYNS_ANY, em)
  | some style =>
    if STREQ style "BLOCK" then (CVar.init fy_node_style.FYNS_BLOCK, em)
    else if STREQ style "FLOW" then (CVar.init fy_node_style.FYNS_FLOW, em)
    else (CVar.indeterminate, add_error em ("invalid sequence style '" ++ style ++ "'"))

/-- Emit a SEQUENCE_START event. -/
def emit_SEQUENCE_START (fy : σ → FyEmitEvent → Int × List String × σ)
    (t : EventTable) (em : lyaml_emitter σ) : Int × lyaml_emitter σ :=
  let s := emit_SEQUENCE_START_style t em
  let anchor : Option String := RAWGET_YAML_CHARP none some t.anchor
  let tag : Option String := RAWGET_YAML_CHARP none some t.tag
  let _implicit := RAWGET_BOOLEAN true t.implicit
  fy_emit_event fy s.2 (FyEmitEvent.SEQUENCE_START s.1 anchor tag)

/-- Emit a SEQUENCE_END event. -/
def emit_SEQUENCE_END (fy : σ → FyEmitEvent → Int × List String × σ)
    (_t : EventTable) (em : lyaml_emitter σ) : Int × lyaml_emitter σ :=
  fy_emit_event fy em FyEmitEvent.SEQUENCE_END

/-- The style selection of emit_SCALAR (source lines 271 to 286). -/
def emit_SCALAR_style (t : EventTable) (em : lyaml_emitter σ) :
    CVar fy_scalar_style × lyaml_emitter σ :=
  match RAWGET_STRDUP t.style with
  | none => (CVar.init fy_scalar_style.FYSS_ANY, em)
  | some style =>
    if STREQ style "PLAIN" then (CVar.init fy_scalar_style.FYSS_PLAIN, em)
    else if STREQ style "SINGLE_QUOTED" then (CVar.init fy_scalar_style.FYSS_SINGLE_QUOTED, em)
    else if STREQ style "DOUBLE_QUOTED" then (CVar.init fy_scalar_style.FYSS_DOUBLE_QUOTED, em)
    else if STREQ style "LITERAL" then (CVar.init fy_scalar_style.FYSS_LITERAL, em)
    else if STREQ style "FOLDED" then (CVar.init fy_scalar_style.FYSS_FOLDED, em)
    else (CVar.indeterminate, add_error em ("invalid scalar style '" ++ style ++ "'"))

/-- The event emit_SCALAR creates: the variable length receives the byte
length of the value and is not an argument of the creation, whose length
argument is the constant FY_NT. -/
def emit_SCALAR_event (t : EventTable) (yaml_style : CVar fy_scalar_style) : FyEmitEvent :=
  let anchor : Option String := RAWGET_YAML_CHARP none some t.anchor
  let tag : Option String := RAWGET_YAML_CHARP none some t.tag
  let value : CVar String := RAWGET_YAML_CHARP CVar.indeterminate CVar.init t.value
  let _length : Nat := (t.value.map String.length).getD 0
  let _plain_implicit := RAWGET_BOOLEAN true t.plain_implicit
  let _quoted_implicit := RAWGET_BOOLEAN true t.quoted_implicit
  FyEmitEvent.SCALAR yaml_style value fy_size.FY_NT anchor tag

/-- Emit a SCALAR event. -/
def emit_SCALAR (fy : σ → FyEmitEvent → Int × List String × σ)
    (t : EventTable) (em : lyaml_emitter σ) : Int × lyaml_emitter σ :=
  let s := emit_SCALAR_style t em
  fy_emit_event fy s.2 (emit_SCALAR_event t s.1)

/-- Emit an ALIAS event. -/
def emit_ALIAS (fy : σ → FyEmitEvent → Int × List String × σ)
    (t : EventTable) (em : lyaml_emitter σ) : Int × lyaml_emitter σ :=
  let anchor : CVar String := RAWGET_YAML_CHARP CVar.indeterminate CVar.init t.anchor
  fy_emit_event fy em (FyEmitEvent.ALIAS anchor fy_size.FY_NT)

/-- The first part of emit (source lines 329 to 355): the type field is read
and the event handler of that type is called; the result is the value of rc
and the emitter afterwards. -/
def emit_dispatch (fy : σ → FyEmitEvent → Int × List String × σ)
    (t : EventTable) (em : lyaml_emitter σ) : Int × lyaml_emitter σ :=
  match RAWGET_STRDUP t.type with
  | none => (-1, add_error em "no type field in event table")
  | some type =>
    if STREQ type "SCALAR" then emit_SCALAR fy t em
    else if STREQ type "MAPPING_START" then emit_MAPPING_START fy t em
    else if STREQ type "MAPPING_END" then emit_MAPPING_END fy t em
    else if STREQ type "SEQUENCE_START" then emit_SEQUENCE_START fy t em
    else if STREQ type "SEQUENCE_END" then emit_SEQUENCE_END fy t em
    else if STREQ type "DOCUMENT_START" then emit_DOCUMENT_START fy t em
    else if STREQ type "DOCUMENT_END" then emit_DOCUMENT_END fy t em
    else if STREQ type "STREAM_START" then emit_STREAM_START fy t em
    else if STREQ type "STREAM_END" then emit_STREAM_END fy t em
    else if STREQ type "ALIAS" then emit_ALIAS fy t em
    else (-1, add_error em ("invalid event type '" ++ type ++ "'"))

/-- The flag finalize of emit: the type is present and equal to STREAM_END. -/
def emit_finalize (t : EventTable) : Bool :=
  match RAWGET_STRDUP t.type with
  | none => false
  | some type => STREQ type "STREAM_END"

/-- The second step of emit (source lines 361 to 374): a nonzero rc is
recorded as one more error. -/
def emit_engine_error (r : Int × lyaml_emitter σ) : lyaml_emitter σ :=
  if r.1 ≠ 0 then add_error r.2 "libfyaml emit failed" else r.2

/-- The Lua function emit of an emitter object: what it returns and the
emitter afterwards. The Lua auxiliary function luaL_pushresult pushes the
bytes accumulated in a buffer and leaves them in the buffer. -/
def emit (fy : σ → FyEmitEvent → Int × List String × σ)
    (t : EventTable) (em : lyaml_emitter σ) : EmitReturn × lyaml_emitter σ :=
  let em2 := emit_engine_error (emit_dispatch fy t em)
  if em2.error ≠ 0 then
    if em2.error = 1 then (EmitReturn.fail em2.errbuff, em2)
    else (EmitReturn.assertFailed, em2)
  else if emit_finalize t then (EmitReturn.okText em2.yamlbuff, em2)
  else (EmitReturn.ok, em2)

/-- The emitter object Pemitter returns when fy_emitter_create returned the
engine handle `h`: no error, both buffers empty. -/
def lyaml_emitter.fresh (h : σ) : lyaml_emitter σ :=
  { emitter := h, yamlbuff := "", errbuff := "", error := 0, submitted := [], written := [] }

/-- The Lua function emitter: raises an error when the engine cannot be
created. -/
def Pemitter (fy_emitter_create : Option σ) : Except String (lyaml_emitter σ) :=
  match fy_emitter_create with
  | none => Except.error "cannot initialize emitter"
  | some h => Except.ok (lyaml_emitter.fresh h)

/-- A sequence of emit calls on one emitter, the return values in call order;
the sequence stops at a failed assertion. -/
def emit_all (fy : σ → FyEmitEvent → Int × List String × σ) :
    List EventTable → lyaml_emitter σ → List EmitReturn × lyaml_emitter σ
  | [], em => ([], em)
  | t :: ts, em =>
    let r := emit fy t em
    match r.1 with
    | EmitReturn.assertFailed => ([EmitReturn.assertFailed], r.2)
    | ret =>
      let rest := emit_all fy ts r.2
      (ret :: rest.1, rest.2)

end Emitter

/-! ## The decoder (parser.c) -/

/-- A Lua value as far as the decoder builds them: nil, booleans, integers,
strings and tables (the fields of a table with their keys). -/
inductive LuaValue where
  | nil : LuaValue
  | bool (b : Bool) : LuaValue
  | integer (n : Int) : LuaValue
  | string (s : String) : LuaValue
  | table (fields : List (LuaKey × LuaValue)) : LuaValue

/-- The Lua API function lua_rawget on the fields of a table. -/
def lua_rawget (fields : List (LuaKey × LuaValue)) (k : LuaKey) : LuaValue :=
  match fields.find? (fun e => decide (e.1 = k)) with
  | some e => e.2
  | none => LuaValue.nil

/-- The Lua API function lua_rawset on the fields of a table. -/
def lua_rawset (fields : List (LuaKey × LuaValue)) (k : LuaKey) (v : LuaValue) :
    List (LuaKey × LuaValue) :=
  fields.filter (fun e => !decide (e.1 = k)) ++ [(k, v)]

/-- The type field of a value, when the value is a table holding a string
there. -/
def LuaValue.typeField : LuaValue → Option String
  | LuaValue.table fields =>
    match lua_rawget fields (LuaKey.str "type") with
    | LuaValue.string s => some s
    | _ => none
  | _ => none

/-- Whether a value is a table. -/
def LuaValue.isTable : LuaValue → Bool
  | LuaValue.table _ => true
  | _ => false

structure fy_mark where
  input_pos : Int
  line : Int
  column : Int
  deriving DecidableEq, Repr

/-- The kinds of low-level events; `other` stands for every value of the C
enumeration that has none of the names. -/
inductive fy_event_type where
  | FYET_NONE
  | FYET_STREAM_START
  | FYET_STREAM_END
  | FYET_DOCUMENT_START
  | FYET_DOCUMENT_END
  | FYET_MAPPING_START
  | FYET_MAPPING_END
  | FYET_SEQUENCE_START
  | FYET_SEQUENCE_END
  | FYET_SCALAR
  | FYET_ALIAS
  | other (n : Int)
  deriving DecidableEq, Repr

/-- A low-level event as the decoder reads it through the accessors of the
engine: its type, its marks (absent when the accessor returns NULL), and
what the accessors used by the parse functions return for it. -/
structure fy_event where
  type : fy_event_type
  start_mark : Option fy_mark := none
  end_mark : Option fy_mark := none
  implicit : Bool := false
  version : Option fy_version := none
  tag_directives : List (String × String) := []
  anchor : Option String := none
  tag : Option String := none
  value : Option String := none
  sstyle : fy_scalar_style := fy_scalar_style.FYSS_ANY
  nstyle : fy_node_style := fy_node_style.FYNS_ANY
  start_token : Bool := false
  deriving DecidableEq, Repr

/-- The decoder object. The fields parser, event and document_count are those
of the C struct; `obtained` and `released` are observation variables: the
events fy_parser_parse returned and the events given to
fy_parser_event_free, in order. -/
structure lyaml_parser_t (π : Type) where
  parser : π
  event : Option fy_event
  document_count : Int
  obtained : List fy_event
  released : List fy_event

/-- What a call of the iterator does: return a value or raise a Lua error. -/
inductive IterReturn where
  | value (v : LuaValue)
  | error (message : String)

section Parser

variable {π : Type}

/-- Release the held event, when there is one. -/
def parser_delete_event (p : lyaml_parser_t π) : lyaml_parser_t π :=
  match p.event with
  | some e => { p with event := none, released := p.released ++ [e] }
  | none => p

/-- Modelled from the spec: the macro RAWSET_INTEGER of lyaml.h, which is not
among the sources; sets a key of the table on top of the stack to an integer. -/
def RAWSET_INTEGER (fields : List (LuaKey × LuaValue)) (k : String) (n : Int) :
    List (LuaKey × LuaValue) :=
  lua_rawset fields (LuaKey.str k) (LuaValue.integer n)

/-- Modelled from the spec: the macro RAWSET_STRING of lyaml.h, which is not
among the sources; sets a key of the table on top of the stack to a string. -/
def RAWSET_STRING (fields : List (LuaKey × LuaValue)) (k : String) (s : String) :
    List (LuaKey × LuaValue) :=
  lua_rawset fields (LuaKey.str k) (LuaValue.string s)

/-- Modelled from the spec: the macro RAWSET_BOOLEAN of lyaml.h, which is not
among the sources; sets a key of the table on top of the stack to a boolean. -/
def RAWSET_BOOLEAN (fields : List (LuaKey × LuaValue)) (k : String) (b : Bool) :
    List (LuaKey × LuaValue) :=
  lua_rawset fields (LuaKey.str k) (LuaValue.bool b)

/-- With the event table on top of the stack, insert a mark entry. -/
def parser_set_mark (fields : List (LuaKey × LuaValue)) (k : String) (mark : Option fy_mark) :
    List (LuaKey × LuaValue) :=
  let m0 : List (LuaKey × LuaValue) := []
  let m1 := RAWSET_INTEGER m0 "index" (match mark with | some m => m.input_pos | none => 0)
  let m2 := RAWSET_INTEGER m1 "line" (match mark with | some m => m.line | none => 0)
  let m3 := RAWSET_INTEGER m2 "column" (match mark with | some m => m.column | none => 0)
  lua_rawset fields (LuaKey.str k) (LuaValue.table m3)

/-- Push a new event table, pre-populated with shared elements. -/
def parser_push_eventtable (e : fy_event) (v : String) : List (LuaKey × LuaValue) :=
  let t0 : List (LuaKey × LuaValue) := []
  let t1 := RAWSET_STRING t0 "type" v
  let t2 := parser_set_mark t1 "start_mark" e.start_mark
  parser_set_mark t2 "end_mark" e.end_mark

def parse_STREAM_START (e : fy_event) : List (LuaKey × LuaValue) :=
  RAWSET_STRING (parser_push_eventtable e "STREAM_START") "encoding" "UTF8"

/-- The loop of parse_DOCUMENT_START over the tag directives: each one is
stored at the index after the current length of the list. -/
def parse_tag_directives (tags : List (String × String)) : List (LuaKey × LuaValue) :=
  tags.foldl
    (fun acc tag =>
      let d0 : List (LuaKey × LuaValue) := []
      let d1 := RAWSET_STRING d0 "handle" tag.1
      let d2 := RAWSET_STRING d1 "prefix" tag.2
      lua_rawset acc (LuaKey.int (lua_objlen acc + 1)) (LuaValue.table d2))
    []

/-- The table of a DOCUMENT_START event; the caller increments the document
count. -/
def parse_DOCUMENT_START_table (e : fy_event) : List (LuaKey × LuaValue) :=
  let t1 := RAWSET_BOOLEAN (parser_push_eventtable e "DOCUMENT_START") "implicit" e.implicit
  let t2 :=
    match e.version with
    | some version =>
      let v0 : List (LuaKey × LuaValue) := []
      let v1 := RAWSET_INTEGER v0 "major" version.major
      let v2 := RAWSET_INTEGER v1 "minor" version.minor
      lua_rawset t1 (LuaKey.str "version_directive") (LuaValue.table v2)
    | none => t1
  match e.tag_directives with
  | [] => t2
  | tags => lua_rawset t2 (LuaKey.str "tag_directives") (LuaValue.table (parse_tag_directives tags))

def parse_DOCUMENT_START (p : lyaml_parser_t π) (e : fy_event) :
    IterReturn × lyaml_parser_t π :=
  let p1 := { p with document_count := p.document_count + 1 }
  (IterReturn.value (LuaValue.table (parse_DOCUMENT_START_table e)), p1)

def parse_DOCUMENT_END (e : fy_event) : List (LuaKey × LuaValue) :=
  RAWSET_BOOLEAN (parser_push_eventtable e "DOCUMENT_END") "implicit" e.implicit

def parse_ALIAS (e : fy_event) : IterReturn :=
  match e.anchor with
  | none => IterReturn.error "fy_token_get_text0() failed"
  | some anchor =>
    IterReturn.value (LuaValue.table
      (RAWSET_STRING (parser_push_eventtable e "ALIAS") "anchor" anchor))

/-- The switch of parse_SCALAR over the scalar style: the style name, or
the number of a style without a case. -/
def parse_SCALAR_style : fy_scalar_style → Except Int String
  | fy_scalar_style.FYSS_ANY => Except.ok "ANY"
  | fy_scalar_style.FYSS_PLAIN => Except.ok "PLAIN"
  | fy_scalar_style.FYSS_SINGLE_QUOTED => Except.ok "SINGLE_QUOTED"
  | fy_scalar_style.FYSS_DOUBLE_QUOTED => Except.ok "DOUBLE_QUOTED"
  | fy_scalar_style.FYSS_LITERAL => Except.ok "LITERAL"
  | fy_scalar_style.FYSS_FOLDED => Except.ok "FOLDED"
  | fy_scalar_style.other n => Except.error n

def parse_SCALAR (e : fy_event) : IterReturn :=
  match parse_SCALAR_style e.sstyle with
  | Except.error n => IterReturn.error ("invalid sequence style " ++ toString n)
  | Except.ok style =>
    let anchor := e.anchor.getD ""
    let tag := e.tag.getD ""
    let value := e.value.getD ""
    let t1 := RAWSET_STRING (parser_push_eventtable e "SCALAR") "anchor" anchor
    let t2 := RAWSET_STRING t1 "tag" tag
    let t3 := RAWSET_STRING t2 "value" value
    let t4 := RAWSET_BOOLEAN t3 "plain_implicit" false
    let t5 := RAWSET_BOOLEAN t4 "quoted_implicit" false
    IterReturn.value (LuaValue.table (RAWSET_STRING t5 "style" style))

/-- The switch of parse_SEQUENCE_START and parse_MAPPING_START over the node
style: the style name, or the number of a style without a case. -/
def parse_node_style : fy_node_style → Except Int String
  | fy_node_style.FYNS_ANY => Except.ok "ANY"
  | fy_node_style.FYNS_BLOCK => Except.ok "BLOCK"
  | fy_node_style.FYNS_FLOW => Except.ok "FLOW"
  | fy_node_style.other n => Except.error n

def parse_SEQUENCE_START (e : fy_event) : IterReturn :=
  match parse_node_style e.nstyle with
  | Except.error n => IterReturn.error ("invalid sequence style " ++ toString n)
  | Except.ok style =>
    let anchor := e.anchor.getD ""
    let tag := e.tag.getD ""
    let implicit := !e.start_token
    let t1 := RAWSET_STRING (parser_push_eventtable e "SEQUENCE_START") "anchor" anchor
    let t2 := RAWSET_STRING t1 "tag" tag
    let t3 := RAWSET_BOOLEAN t2 "implicit" implicit
    IterReturn.value (LuaValue.table (RAWSET_STRING t3 "style" style))

def parse_MAPPING_START (e : fy_event) : IterReturn :=
  match parse_node_style e.nstyle with
  | Except.error n => IterReturn.error ("invalid mapping style " ++ toString n)
  | Except.ok style =>
    let anchor := e.anchor.getD ""
    let tag := e.tag.getD ""
    let implicit := !e.start_token
    let t1 := RAWSET_STRING (parser_push_eventtable e "MAPPING_START") "anchor" anchor
    let t2 := RAWSET_STRING t1 "tag" tag
    let t3 := RAWSET_BOOLEAN t2 "implicit" implicit
    IterReturn.value (LuaValue.table (RAWSET_STRING t3 "style" style))

/-- The message of the error raised when the engine returns no event. -/
def parser_generate_error_message (p : lyaml_parser_t π) : String :=
  "A problem" ++ (" at document: " ++ toString p.document_count)

/-- The Lua iterator function of a decoder: what it returns or raises, and
the decoder afterwards. The engine `fy_parser_parse` returns the next event
(or none) and its next state. -/
def event_iter (fy_parser_parse : π → Option fy_event × π) (p : lyaml_parser_t π) :
    IterReturn × lyaml_parser_t π :=
  let p1 := parser_delete_event p
  let r := fy_parser_parse p1.parser
  let p2 : lyaml_parser_t π :=
    { p1 with parser := r.2, event := r.1, obtained := p1.obtained ++ r.1.toList }
  match r.1 with
  | none => (IterReturn.error (parser_generate_error_message p2), p2)
  | some e =>
    match e.type with
    | fy_event_type.FYET_STREAM_END =>
      (IterReturn.value (LuaValue.table (parser_push_eventtable e "STREAM_END")), p2)
    | fy_event_type.FYET_SEQUENCE_END =>
      (IterReturn.value (LuaValue.table (parser_push_eventtable e "SEQUENCE_END")), p2)
    | fy_event_type.FYET_MAPPING_END =>
      (IterReturn.value (LuaValue.table (parser_push_eventtable e "MAPPING_END")), p2)
    | fy_event_type.FYET_STREAM_START =>
      (IterReturn.value (LuaValue.table (parse_STREAM_START e)), p2)
    | fy_event_type.FYET_DOCUMENT_START => parse_DOCUMENT_START p2 e
    | fy_event_type.FYET_DOCUMENT_END =>
      (IterReturn.value (LuaValue.table (parse_DOCUMENT_END e)), p2)
    | fy_event_type.FYET_ALIAS => (parse_ALIAS e, p2)
    | fy_event_type.FYET_SCALAR => (parse_SCALAR e, p2)
    | fy_event_type.FYET_SEQUENCE_START => (parse_SEQUENCE_START e, p2)
    | fy_event_type.FYET_MAPPING_START => (parse_MAPPING_START e, p2)
    | fy_event_type.FYET_NONE => (IterReturn.value LuaValue.nil, p2)
    | fy_event_type.other n => (IterReturn.error ("invalid event " ++ toString n), p2)

/-- The decoder object Pparser builds when fy_parser_create returned the
engine handle `h`: the struct is zeroed. -/
def lyaml_parser_t.fresh (h : π) : lyaml_parser_t π :=
  { parser := h, event := none, document_count := 0, obtained := [], released := [] }

/-- The Lua function parser, called with the YAML source `str`: raises an
error when the engine cannot be created, and otherwise gives the source to the
engine (`fy_parser_set_string`) and returns the iterator over a new decoder. -/
def Pparser (fy_parser_create : Option π) (fy_parser_set_string : π → String → π)
    (str : String) : Except String (lyaml_parser_t π) :=
  match fy_parser_create with
  | none => Except.error ("cannot initialize parser for " ++ cstr str)
  | some h => Except.ok (lyaml_parser_t.fresh (fy_parser_set_string h str))

end Parser

/-! ## Engines used in examples -/

/-- An engine that accepts every event and writes nothing. -/
def fy_accept (s : Unit) (_ev : FyEmitEvent) : Int × List String × Unit := (0, [], s)

/-- An engine that rejects every event. -/
def fy_reject (s : Unit) (_ev : FyEmitEvent) : Int × List String × Unit := (-1, [], s)

/-- An engine that accepts every event and writes one chunk naming it. -/
def fy_echo (s : Unit) (ev : FyEmitEvent) : Int × List String × Unit :=
  match ev with
  | FyEmitEvent.SCALAR _ (CVar.init v) n _ _ => (0, [fy_text v n, "\n"], s)
  | FyEmitEvent.STREAM_END => (0, ["...\n"], s)
  | _ => (0, [], s)

/-- A decoder engine whose state is the list of the events still to come. -/
def fy_parse_list (s : List fy_event) : Option fy_event × List fy_event :=
  match s with
  | [] => (none, [])
  | e :: rest => (some e, rest)

/-! ## Notions used in the statements on the encoder -/

/-- The output of `em2` extends the output of `em`: some chunks were handed to
append_output in between, and nothing else touched the output accumulator. -/
def OutputExtends {σ : Type} (em em2 : lyaml_emitter σ) : Prop :=
  ∃ chunks : List String,
    em2.yamlbuff = em.yamlbuff ++ String.join chunks ∧ em2.written = em.written ++ chunks

/-! ## Notions used in the statements on the decoder -/

/-- The name of an event kind, for the ten kinds that have one: the name of
the enumerator without FYET_. -/
def fy_event_type.name : fy_event_type → Option String
  | fy_event_type.FYET_STREAM_START => some "STREAM_START"
  | fy_event_type.FYET_STREAM_END => some "STREAM_END"
  | fy_event_type.FYET_DOCUMENT_START => some "DOCUMENT_START"
  | fy_event_type.FYET_DOCUMENT_END => some "DOCUMENT_END"
  | fy_event_type.FYET_MAPPING_START => some "MAPPING_START"
  | fy_event_type.FYET_MAPPING_END => some "MAPPING_END"
  | fy_event_type.FYET_SEQUENCE_START => some "SEQUENCE_START"
  | fy_event_type.FYET_SEQUENCE_END => some "SEQUENCE_END"
  | fy_event_type.FYET_SCALAR => some "SCALAR"
  | fy_event_type.FYET_ALIAS => some "ALIAS"
  | fy_event_type.FYET_NONE => none
  | fy_event_type.other _ => none

/-- The side conditions of a decodable event: an ALIAS event has an anchor, a
SCALAR event has one of the six scalar styles, a SEQUENCE_START or
MAPPING_START event has one of the three node styles. -/
def fy_event.recognized (e : fy_event) : Bool :=
  match e.type with
  | fy_event_type.FYET_ALIAS => e.anchor.isSome
  | fy_event_type.FYET_SCALAR =>
    (match e.sstyle with
     | fy_scalar_style.other _ => false
     | _ => true)
  | fy_event_type.FYET_SEQUENCE_START =>
    (match e.nstyle with
     | fy_node_style.other _ => false
     | _ => true)
  | fy_event_type.FYET_MAPPING_START =>
    (match e.nstyle with
     | fy_node_style.other _ => false
     | _ => true)
  | _ => true

/-- The fields of the table a call of the iterator returned (none when it
returned nil or raised). -/
def IterReturn.fields : IterReturn → List (LuaKey × LuaValue)
  | IterReturn.value (LuaValue.table fields) => fields
  | _ => []

/-! ## A decoded table as the argument of emit -/

/-- A field read as a string: absent when nil. -/
def lua_string_field (fields : List (LuaKey × LuaValue)) (k : String) : Option String :=
  match lua_rawget fields (LuaKey.str k) with
  | LuaValue.string s => some s
  | _ => none

/-- A field read as a boolean: absent when nil. -/
def lua_bool_field (fields : List (LuaKey × LuaValue)) (k : String) : Option Bool :=
  match lua_rawget fields (LuaKey.str k) with
  | LuaValue.bool b => some b
  | _ => none

/-- A field read as an integer: absent when nil. -/
def lua_integer_field (fields : List (LuaKey × LuaValue)) (k : String) : Option Int :=
  match lua_rawget fields (LuaKey.str k) with
  | LuaValue.integer n => some n
  | _ => none

/-- One element of tag_directives as emit reads it. -/
def TagDirective.ofLua : LuaValue → TagDirective
  | LuaValue.table fields =>
    { handle := lua_string_field fields "handle", pfx := lua_string_field fields "prefix" }
  | _ => {}

/-- The event table emit reads when it is called with the Lua table holding
`fields`: each field of the event schema is looked up under its name. -/
def EventTable.ofLua (fields : List (LuaKey × LuaValue)) : EventTable :=
  { type := lua_string_field fields "type",
    encoding := lua_string_field fields "encoding",
    style := lua_string_field fields "style",
    anchor := lua_string_field fields "anchor",
    tag := lua_string_field fields "tag",
    value := lua_string_field fields "value",
    implicit := lua_bool_field fields "implicit",
    plain_implicit := lua_bool_field fields "plain_implicit",
    quoted_implicit := lua_bool_field fields "quoted_implicit",
    version_directive :=
      (match lua_rawget fields (LuaKey.str "version_directive") with
       | LuaValue.table v =>
         some { major := lua_integer_field v "major", minor := lua_integer_field v "minor" }
       | _ => none),
    tag_directives :=
      (match lua_rawget fields (LuaKey.str "tag_directives") with
       | LuaValue.table ds => some (ds.map (fun d => (d.1, TagDirective.ofLua d.2)))
       | _ => none) }

/-! ## The array indices written by emit_DOCUMENT_START -/

/-- The loop variable i of emit_DOCUMENT_START and the indices written so far
in the arrays tag_directives (elements) and tag_directivesp (pointers). -/
structure TagWrites where
  i : Nat
  element_writes : List Nat
  pointer_writes : List Nat
  deriving DecidableEq, Repr

/-- The index side of the loop of emit_DOCUMENT_START (source lines 121 to
145): each entry lua_next visits writes tag_directives[i] and
tag_directivesp[i] and increments i; after the loop tag_directivesp[i] receives
the terminating NULL. -/
def tag_directives_writes (entries : List (LuaKey × TagDirective)) : TagWrites :=
  let st : TagWrites := entries.foldl
    (fun w _ =>
      { i := w.i + 1,
        element_writes := w.element_writes ++ [w.i],
        pointer_writes := w.pointer_writes ++ [w.i] })
    { i := 0, element_writes := [], pointer_writes := [] }
  { i := st.i + 1, element_writes := st.element_writes,
    pointer_writes := st.pointer_writes ++ [st.i] }

/-- The entries of a Lua sequence from key `k + 1` on. -/
def lua_sequence_from {α : Type} : Nat → List α → List (LuaKey × α)
  | _, [] => []
  | k, x :: xs => (LuaKey.int ((k : Int) + 1), x) :: lua_sequence_from (k + 1) xs

/-- A Lua sequence: the table whose keys are 1, 2, ... in order, holding the
given elements. -/
def lua_sequence {α : Type} (xs : List α) : List (LuaKey × α) :=
  lua_sequence_from 0 xs

/-! ## Lemmas on the encoder -/

section EmitterLemmas

variable {σ : Type}

theorem cstr_cstr (s : String) : cstr (cstr s) = cstr s := by
  unfold cstr
  congr 1
  induction s.data with
  | nil => rfl
  | cons c cs ih =>
    by_cases h : (c != NUL) = true
    · simp [List.takeWhile_cons, h, ih]
    · simp [List.takeWhile_cons, h]

theorem STREQ_strdup (s lit : String) :
    STREQ (strdup s) lit = decide (cstr s = cstr lit) := by
  simp [STREQ, strdup, cstr_cstr]

theorem foldl_append_string (l : List String) (acc : String) :
    l.foldl (fun r s => r ++ s) acc = acc ++ l.foldl (fun r s => r ++ s) "" := by
  induction l generalizing acc with
  | nil => simp
  | cons c cs ih =>
    rw [List.foldl_cons, List.foldl_cons, ih, ih ("" ++ c)]
    simp [String.append_assoc]

theorem join_cons (c : String) (cs : List String) :
    String.join (c :: cs) = c ++ String.join cs := by
  unfold String.join
  rw [List.foldl_cons, foldl_append_string]
  simp

theorem join_append_singleton (l : List String) (c : String) :
    String.join (l ++ [c]) = String.join l ++ c := by
  unfold String.join
  rw [List.foldl_append]
  rfl

theorem join_append (l k : List String) :
    String.join (l ++ k) = String.join l ++ String.join k := by
  unfold String.join
  rw [List.foldl_append, foldl_append_string]

theorem foldl_append_output (chunks : List String) (em : lyaml_emitter σ) :
    chunks.foldl append_output em =
      { em with yamlbuff := em.yamlbuff ++ String.join chunks,
                written := em.written ++ chunks } := by
  induction chunks generalizing em with
  | nil =>
    cases em
    simp [String.join]
  | cons c cs ih =>
    rw [List.foldl_cons, ih]
    simp [append_output, join_cons, String.append_assoc]

/-- The engine call in closed form. -/
theorem fy_emit_event_eq (fy : σ → FyEmitEvent → Int × List String × σ)
    (em : lyaml_emitter σ) (ev : FyEmitEvent) :
    fy_emit_event fy em ev =
      ((fy em.emitter ev).1,
        { emitter := (fy em.emitter ev).2.2,
          yamlbuff := em.yamlbuff ++ String.join (fy em.emitter ev).2.1,
          errbuff := em.errbuff,
          error := em.error,
          submitted := em.submitted ++ [ev],
          written := em.written ++ (fy em.emitter ev).2.1 }) := by
  simp [fy_emit_event, foldl_append_output]

theorem add_error_error (em : lyaml_emitter σ) (msg : String) :
    (add_error em msg).error = em.error + 1 := rfl

/-- The emitter after a call of emit, whatever is returned. -/
theorem emit_snd (fy : σ → FyEmitEvent → Int × List String × σ)
    (t : EventTable) (em : lyaml_emitter σ) :
    (emit fy t em).2 = emit_engine_error (emit_dispatch fy t em) := by
  unfold emit
  simp only []
  split_ifs <;> rfl

theorem OutputExtends.refl (em : lyaml_emitter σ) : OutputExtends em em :=
  ⟨[], by simp [String.join], by simp⟩

theorem OutputExtends.trans {a b c : lyaml_emitter σ}
    (h1 : OutputExtends a b) (h2 : OutputExtends b c) : OutputExtends a c := by
  obtain ⟨c1, hy1, hw1⟩ := h1
  obtain ⟨c2, hy2, hw2⟩ := h2
  refine ⟨c1 ++ c2, ?_, ?_⟩
  · rw [hy2, hy1, join_append, String.append_assoc]
  · rw [hw2, hw1, List.append_assoc]

theorem OutputExtends.add_error (em : lyaml_emitter σ) (msg : String) :
    OutputExtends em (add_error em msg) :=
  ⟨[], by simp [Lyaml.add_error, String.join], by simp [Lyaml.add_error]⟩

theorem OutputExtends.ERROR_IFNIL (b : Bool) (msg : String) (em : lyaml_emitter σ) :
    OutputExtends em (ERROR_IFNIL b msg em) := by
  cases b
  · exact OutputExtends.refl em
  · exact OutputExtends.add_error em msg

theorem OutputExtends.fy_emit_event (fy : σ → FyEmitEvent → Int × List String × σ)
    (em : lyaml_emitter σ) (ev : FyEmitEvent) :
    OutputExtends em (fy_emit_event fy em ev).2 := by
  rw [fy_emit_event_eq]
  exact ⟨_, rfl, rfl⟩

theorem OutputExtends.tag_directives_step (st : TagLoop σ) (entry : LuaKey × TagDirective) :
    OutputExtends st.em (tag_directives_step st entry).em := by
  unfold Lyaml.tag_directives_step
  exact OutputExtends.trans (OutputExtends.ERROR_IFNIL _ _ _) (OutputExtends.ERROR_IFNIL _ _ _)

theorem OutputExtends.tag_directives_loop (entries : List (LuaKey × TagDirective))
    (st : TagLoop σ) :
    OutputExtends st.em (entries.foldl Lyaml.tag_directives_step st).em := by
  induction entries generalizing st with
  | nil => exact OutputExtends.refl _
  | cons e es ih =>
    rw [List.foldl_cons]
    exact OutputExtends.trans (OutputExtends.tag_directives_step st e) (ih _)

theorem OutputExtends.emit_DOCUMENT_START (fy : σ → FyEmitEvent → Int × List String × σ)
    (t : EventTable) (em : lyaml_emitter σ) :
    OutputExtends em (emit_DOCUMENT_START fy t em).2 := by
  unfold Lyaml.emit_DOCUMENT_START
  have hvd : OutputExtends em (match t.version_directive with
      | none => ((none : Option fy_version), em)
      | some v =>
        if (Lyaml.ERROR_IFNIL v.major.isNone "version_directive missing key 'major'"
            em).error = 0 then
          (some { major := RAWGETS_INTEGER 0 v.major, minor := RAWGETS_INTEGER 0 v.minor },
            Lyaml.ERROR_IFNIL v.minor.isNone "version_directive missing key 'minor'"
              (Lyaml.ERROR_IFNIL v.major.isNone "version_directive missing key 'major'" em))
        else
          (some { major := RAWGETS_INTEGER 0 v.major, minor := 0 },
            Lyaml.ERROR_IFNIL v.major.isNone "version_directive missing key 'major'" em)).2 := by
    cases t.version_directive with
    | none => exact OutputExtends.refl _
    | some v =>
      simp only []
      split_ifs
      · exact OutputExtends.trans (OutputExtends.ERROR_IFNIL _ _ _)
          (OutputExtends.ERROR_IFNIL _ _ _)
      · exact OutputExtends.ERROR_IFNIL _ _ _
  simp only []
  generalize (match t.version_directive with
      | none => ((none : Option fy_version), em)
      | some v =>
        if (Lyaml.ERROR_IFNIL v.major.isNone "version_directive missing key 'major'"
            em).error = 0 then
          (some { major := RAWGETS_INTEGER 0 v.major, minor := RAWGETS_INTEGER 0 v.minor },
            Lyaml.ERROR_IFNIL v.minor.isNone "version_directive missing key 'minor'"
              (Lyaml.ERROR_IFNIL v.major.isNone "version_directive missing key 'major'" em))
        else
          (some { major := RAWGETS_INTEGER 0 v.major, minor := 0 },
            Lyaml.ERROR_IFNIL v.major.isNone "version_directive missing key 'major'" em))
    = vd at hvd ⊢
  have htd : OutputExtends vd.2 (match t.tag_directives with
      | none => ((none : Option (List fy_tag)), vd.2)
      | some entries =>
        (some (entries.foldl Lyaml.tag_directives_step
            { em := vd.2, handle := CVar.indeterminate, pfx := CVar.indeterminate,
              tags := [] }).tags,
          (entries.foldl Lyaml.tag_directives_step
            { em := vd.2, handle := CVar.indeterminate, pfx := CVar.indeterminate,
              tags := [] }).em)).2 := by
    cases t.tag_directives with
    | none => exact OutputExtends.refl _
    | some entries =>
      exact OutputExtends.tag_directives_loop entries
        { em := vd.2, handle := CVar.indeterminate, pfx := CVar.indeterminate, tags := [] }
  generalize (match t.tag_directives with
      | none => ((none : Option (List fy_tag)), vd.2)
      | some entries =>
        (some (entries.foldl Lyaml.tag_directives_step
            { em := vd.2, handle := CVar.indeterminate, pfx := CVar.indeterminate,
              tags := [] }).tags,
          (entries.foldl Lyaml.tag_directives_step
            { em := vd.2, handle := CVar.indeterminate, pfx := CVar.indeterminate,
              tags := [] }).em)) = td at htd ⊢
  split_ifs
  · exact OutputExtends.trans hvd htd
  · exact OutputExtends.trans (OutputExtends.trans hvd htd) (OutputExtends.fy_emit_event _ _ _)

theorem OutputExtends.emit_STREAM_START (fy : σ → FyEmitEvent → Int × List String × σ)
    (t : EventTable) (em : lyaml_emitter σ) :
    OutputExtends em (emit_STREAM_START fy t em).2 := by
  unfold Lyaml.emit_STREAM_START
  cases RAWGET_STRDUP t.encoding with
  | none =>
    simp only []
    split_ifs
    · exact OutputExtends.refl _
    · exact OutputExtends.fy_emit_event _ _ _
  | some e =>
    simp only []
    split_ifs
    · exact OutputExtends.add_error _ _
    · exact OutputExtends.trans (OutputExtends.add_error _ _) (OutputExtends.fy_emit_event _ _ _)
    · exact OutputExtends.refl _
    · exact OutputExtends.fy_emit_event _ _ _

theorem OutputExtends.emit_MAPPING_START_style (t : EventTable) (em : lyaml_emitter σ) :
    OutputExtends em (emit_MAPPING_START_style t em).2 := by
  unfold Lyaml.emit_MAPPING_START_style
  cases RAWGET_STRDUP t.style with
  | none => exact OutputExtends.refl _
  | some s =>
    simp only []
    split_ifs
    · exact OutputExtends.refl _
    · exact OutputExtends.refl _
    · exact OutputExtends.add_error _ _

theorem OutputExtends.emit_SEQUENCE_START_style (t : EventTable) (em : lyaml_emitter σ) :
    OutputExtends em (emit_SEQUENCE_START_style t em).2 := by
  unfold Lyaml.emit_SEQUENCE_START_style
  cases RAWGET_STRDUP t.style with
  | none => exact OutputExtends.refl _
  | some s =>
    simp only []
    split_ifs
    · exact OutputExtends.refl _
    · exact OutputExtends.refl _
    · exact OutputExtends.add_error _ _

theorem OutputExtends.emit_SCALAR_style (t : EventTable) (em : lyaml_emitter σ) :
    OutputExtends em (emit_SCALAR_style t em).2 := by
  unfold Lyaml.emit_SCALAR_style
  cases RAWGET_STRDUP t.style with
  | none => exact OutputExtends.refl _
  | some s =>
    simp only []
    split_ifs
    · exact OutputExtends.refl _
    · exact OutputExtends.refl _
    · exact OutputExtends.refl _
    · exact OutputExtends.refl _
    · exact OutputExtends.refl _
    · exact OutputExtends.add_error _ _

/-- The first part of emit touches the output accumulator only through
append_output. -/
theorem OutputExtends.emit_dispatch (fy : σ → FyEmitEvent → Int × List String × σ)
    (t : EventTable) (em : lyaml_emitter σ) :
    OutputExtends em (emit_dispatch fy t em).2 := by
  unfold Lyaml.emit_dispatch
  cases RAWGET_STRDUP t.type with
  | none => exact OutputExtends.add_error _ _
  | some type =>
    simp only []
    by_cases h1 : STREQ type "SCALAR" = true
    · rw [if_pos h1]
      exact OutputExtends.trans (OutputExtends.emit_SCALAR_style t em)
        (OutputExtends.fy_emit_event _ _ _)
    rw [if_neg h1]
    by_cases h2 : STREQ type "MAPPING_START" = true
    · rw [if_pos h2]
      exact OutputExtends.trans (OutputExtends.emit_MAPPING_START_style t em)
        (OutputExtends.fy_emit_event _ _ _)
    rw [if_neg h2]
    by_cases h3 : STREQ type "MAPPING_END" = true
    · rw [if_pos h3]
      exact OutputExtends.fy_emit_event _ _ _
    rw [if_neg h3]
    by_cases h4 : STREQ type "SEQUENCE_START" = true
    · rw [if_pos h4]
      exact OutputExtends.trans (OutputExtends.emit_SEQUENCE_START_style t em)
        (OutputExtends.fy_emit_event _ _ _)
    rw [if_neg h4]
    by_cases h5 : STREQ type "SEQUENCE_END" = true
    · rw [if_pos h5]
      exact OutputExtends.fy_emit_event _ _ _
    rw [if_neg h5]
    by_cases h6 : STREQ type "DOCUMENT_START" = true
    · rw [if_pos h6]
      exact OutputExtends.emit_DOCUMENT_START fy t em
    rw [if_neg h6]
    by_cases h7 : STREQ type "DOCUMENT_END" = true
    · rw [if_pos h7]
      exact OutputExtends.fy_emit_event _ _ _
    rw [if_neg h7]
    by_cases h8 : STREQ type "STREAM_START" = true
    · rw [if_pos h8]
      exact OutputExtends.emit_STREAM_START fy t em
    rw [if_neg h8]
    by_cases h9 : STREQ type "STREAM_END" = true
    · rw [if_pos h9]
      exact OutputExtends.fy_emit_event _ _ _
    rw [if_neg h9]
    by_cases h10 : STREQ type "ALIAS" = true
    · rw [if_pos h10]
      exact OutputExtends.fy_emit_event _ _ _
    rw [if_neg h10]
    exact OutputExtends.add_error _ _

/-- A call of emit touches the output accumulator only through append_output. -/
theorem OutputExtends.emit (fy : σ → FyEmitEvent → Int × List String × σ)
    (t : EventTable) (em : lyaml_emitter σ) :
    OutputExtends em (emit fy t em).2 := by
  rw [emit_snd]
  unfold emit_engine_error
  split_ifs
  · exact OutputExtends.trans (OutputExtends.emit_dispatch fy t em) (OutputExtends.add_error _ _)
  · exact OutputExtends.emit_dispatch fy t em

theorem OutputExtends.emit_all (fy : σ → FyEmitEvent → Int × List String × σ)
    (ts : List EventTable) (em : lyaml_emitter σ) :
    OutputExtends em (emit_all fy ts em).2 := by
  induction ts generalizing em with
  | nil => exact OutputExtends.refl _
  | cons t ts ih =>
    have h1 := OutputExtends.emit fy t em
    unfold Lyaml.emit_all
    simp only []
    split
    · exact h1
    · exact OutputExtends.trans h1 (ih _)

/-- The output accumulator of an emitter reached from a fresh one holds the
concatenation of all chunks handed to append_output, in order. -/
theorem yamlbuff_eq_join_written (fy : σ → FyEmitEvent → Int × List String × σ)
    (h : σ) (ts : List EventTable) :
    (emit_all fy ts (lyaml_emitter.fresh h)).2.yamlbuff =
      String.join (emit_all fy ts (lyaml_emitter.fresh h)).2.written := by
  obtain ⟨chunks, hy, hw⟩ := OutputExtends.emit_all fy ts (lyaml_emitter.fresh h)
  rw [hy, hw]
  simp [lyaml_emitter.fresh]

/-! ### The arrays of emit_DOCUMENT_START -/

theorem tag_writes_foldl (entries : List (LuaKey × TagDirective)) (a : Nat) :
    entries.foldl
      (fun (w : TagWrites) _ =>
        { i := w.i + 1,
          element_writes := w.element_writes ++ [w.i],
          pointer_writes := w.pointer_writes ++ [w.i] })
      { i := a, element_writes := List.range a, pointer_writes := List.range a } =
    { i := a + entries.length, element_writes := List.range (a + entries.length),
      pointer_writes := List.range (a + entries.length) } := by
  induction entries generalizing a with
  | nil => rfl
  | cons e es ih =>
    rw [List.foldl_cons]
    simp only [← List.range_succ]
    rw [ih (a + 1), List.length_cons]
    have h : a + 1 + es.length = a + (es.length + 1) := by omega
    rw [h]

/-- The indices written by the loop of emit_DOCUMENT_START: one element and
one pointer for every entry lua_next visits, and one more pointer. -/
theorem tag_directives_writes_eq (entries : List (LuaKey × TagDirective)) :
    tag_directives_writes entries =
      { i := entries.length + 1, element_writes := List.range entries.length,
        pointer_writes := List.range (entries.length + 1) } := by
  unfold tag_directives_writes
  have h := tag_writes_foldl entries 0
  simp only [List.range_zero, Nat.zero_add] at h
  simp only [h, ← List.range_succ]

theorem lua_sequence_from_length {α : Type} (k : Nat) (xs : List α) :
    (lua_sequence_from k xs).length = xs.length := by
  induction xs generalizing k with
  | nil => rfl
  | cons x xs ih => simp [lua_sequence_from, ih]

theorem lua_sequence_from_mem {α : Type} (xs : List α) (k j : Nat)
    (h1 : k ≤ j) (h2 : j < k + xs.length) :
    LuaKey.int ((j : Int) + 1) ∈ (lua_sequence_from k xs).map Prod.fst := by
  induction xs generalizing k with
  | nil => simp at h2; omega
  | cons x xs ih =>
    simp only [lua_sequence_from, List.map_cons, List.mem_cons]
    by_cases hjk : j = k
    · left
      rw [hjk]
    · right
      apply ih (k + 1)
      · omega
      · simp only [List.length_cons] at h2
        omega

theorem lua_objlen_from_full (keys : List LuaKey) (n : Nat)
    (hmem : ∀ j, j < n → LuaKey.int ((j : Int) + 1) ∈ keys)
    (fuel j : Nat) (hj : j + fuel = n) :
    lua_objlen_from keys fuel j = n := by
  induction fuel generalizing j with
  | zero =>
    simp only [lua_objlen_from]
    omega
  | succ fuel ih =>
    have hlt : j < n := by omega
    simp only [lua_objlen_from, hmem j hlt, if_true]
    exact ih (j + 1) (by omega)

/-- The length of a Lua sequence is the number of its elements. -/
theorem lua_objlen_sequence {α : Type} (xs : List α) :
    lua_objlen (lua_sequence xs) = xs.length := by
  unfold lua_objlen lua_sequence
  rw [lua_sequence_from_length]
  apply lua_objlen_from_full
  · intro j hj
    exact lua_sequence_from_mem xs 0 j (Nat.zero_le _) (by omega)
  · omega

theorem tag_directives_loop_tags_length (entries : List (LuaKey × TagDirective))
    (st : TagLoop σ) :
    (entries.foldl tag_directives_step st).tags.length = st.tags.length + entries.length := by
  induction entries generalizing st with
  | nil => rfl
  | cons e es ih =>
    rw [List.foldl_cons, ih]
    simp [tag_directives_step]
    omega

end EmitterLemmas

/-! ## Theorems on the encoder -/

section EmitterTheorems

variable {σ : Type}

/-- C1 (the code at the failing input): on a fresh emitter, emit of an event
table without a type field records the error of the missing type, leaves rc
at -1, records a second error for the nonzero rc and so reaches the failure path
with the counter at 2: the assertion emitter->error == 1 fails and nothing is
returned, where the claim has emit return false and a message. No event is
submitted to the engine. -/
theorem emit_missing_type_fails_assertion
    (fy : σ → FyEmitEvent → Int × List String × σ) (h : σ) :
    (emit fy {} (lyaml_emitter.fresh h)).1 = EmitReturn.assertFailed ∧
    (emit fy {} (lyaml_emitter.fresh h)).2.error = 2 ∧
    (emit fy {} (lyaml_emitter.fresh h)).2.errbuff =
      "no type field in event tablelibfyaml emit failed" ∧
    (emit fy {} (lyaml_emitter.fresh h)).2.submitted = [] := by
  exact ⟨rfl, rfl, rfl, rfl⟩

/-- C2 (the code at the failing input): on a fresh emitter, emit of a
MAPPING_START event with style BOGUS records the style error and then
still calls the engine, with a MAPPING_START event whose style is the value of
a variable that was never written; the chunks the engine writes in that
call are appended to the output accumulator; emit returns false and the
message of the claim only when the engine accepts that event, and fails its
assertion when the engine rejects it. The claim has no event submitted. -/
theorem emit_MAPPING_START_bogus_style_submits
    (fy : σ → FyEmitEvent → Int × List String × σ) (h : σ) :
    (emit fy { type := some "MAPPING_START", style := some "BOGUS" }
        (lyaml_emitter.fresh h)).2.submitted =
      [FyEmitEvent.MAPPING_START CVar.indeterminate none none] ∧
    (emit fy { type := some "MAPPING_START", style := some "BOGUS" }
        (lyaml_emitter.fresh h)).2.written =
      (fy h (FyEmitEvent.MAPPING_START CVar.indeterminate none none)).2.1 ∧
    (emit fy { type := some "MAPPING_START", style := some "BOGUS" }
        (lyaml_emitter.fresh h)).2.yamlbuff =
      String.join (fy h (FyEmitEvent.MAPPING_START CVar.indeterminate none none)).2.1 ∧
    (emit fy { type := some "MAPPING_START", style := some "BOGUS" }
        (lyaml_emitter.fresh h)).1 =
      (if (fy h (FyEmitEvent.MAPPING_START CVar.indeterminate none none)).1 = 0
       then EmitReturn.fail "invalid mapping style 'BOGUS'"
       else EmitReturn.assertFailed) := by
  have e1 : emit_dispatch fy { type := some "MAPPING_START", style := some "BOGUS" }
      (lyaml_emitter.fresh h) =
      fy_emit_event fy (add_error (lyaml_emitter.fresh h) "invalid mapping style 'BOGUS'")
        (FyEmitEvent.MAPPING_START CVar.indeterminate none none) := rfl
  have e2 : emit_finalize { type := some "MAPPING_START", style := some "BOGUS" } = false := rfl
  have e3 : ("" : String) ++ "invalid mapping style 'BOGUS'" = "invalid mapping style 'BOGUS'" := rfl
  by_cases hrc : (fy h (FyEmitEvent.MAPPING_START CVar.indeterminate none none)).1 = 0
  · simp only [emit, e1, e2, fy_emit_event_eq, emit_engine_error]
    simp [add_error, lyaml_emitter.fresh, hrc, e3]
  · simp only [emit, e1, e2, fy_emit_event_eq, emit_engine_error]
    simp [add_error, lyaml_emitter.fresh, hrc, e3]

/-- C4 (the code at failing inputs): one emit call on a fresh emitter, whose
error counter is 0, leaves the counter at 2 and fails the assertion
emitter->error == 1, whatever the engine does, for an event table with an
unrecognized type and for a DOCUMENT_START table whose tag_directives holds one
element lacking both handle and prefix. -/
theorem emit_counts_two_errors
    (fy : σ → FyEmitEvent → Int × List String × σ) (h : σ) :
    ((emit fy { type := some "BOGUS" } (lyaml_emitter.fresh h)).2.error = 2 ∧
     (emit fy { type := some "BOGUS" } (lyaml_emitter.fresh h)).1 = EmitReturn.assertFailed ∧
     (emit fy { type := some "BOGUS" } (lyaml_emitter.fresh h)).2.errbuff =
       "invalid event type 'BOGUS'libfyaml emit failed") ∧
    ((emit fy { type := some "DOCUMENT_START", tag_directives := some [(LuaKey.int 1, {})] }
        (lyaml_emitter.fresh h)).2.error = 2 ∧
     (emit fy { type := some "DOCUMENT_START", tag_directives := some [(LuaKey.int 1, {})] }
        (lyaml_emitter.fresh h)).1 = EmitReturn.assertFailed ∧
     (emit fy { type := some "DOCUMENT_START", tag_directives := some [(LuaKey.int 1, {})] }
        (lyaml_emitter.fresh h)).2.errbuff =
       "tag_directives item missing key 'handle'tag_directives item missing key 'prefix'") :=
  ⟨⟨rfl, rfl, rfl⟩, ⟨rfl, rfl, rfl⟩⟩

/-- C5 (the code at the failing input): for a SCALAR event whose value is
the three bytes a, zero, b, emit_SCALAR hands the engine a pointer to the
value together with the length argument FY_NT, not the byte length 3; the
content the engine reads is the one byte a. -/
theorem emit_SCALAR_passes_FY_NT
    (fy : σ → FyEmitEvent → Int × List String × σ) (h : σ) :
    (emit fy { type := some "SCALAR", value := some ("a" ++ String.mk [NUL] ++ "b") }
        (lyaml_emitter.fresh h)).2.submitted =
      [FyEmitEvent.SCALAR (CVar.init fy_scalar_style.FYSS_ANY)
        (CVar.init ("a" ++ String.mk [NUL] ++ "b")) fy_size.FY_NT none none] ∧
    fy_text ("a" ++ String.mk [NUL] ++ "b") fy_size.FY_NT = "a" ∧
    (fy_text ("a" ++ String.mk [NUL] ++ "b") fy_size.FY_NT).length = 1 ∧
    ("a" ++ String.mk [NUL] ++ "b").length = 3 := by
  have e1 : emit_dispatch fy
      { type := some "SCALAR", value := some ("a" ++ String.mk [NUL] ++ "b") }
      (lyaml_emitter.fresh h) =
      fy_emit_event fy (lyaml_emitter.fresh h)
        (FyEmitEvent.SCALAR (CVar.init fy_scalar_style.FYSS_ANY)
          (CVar.init ("a" ++ String.mk [NUL] ++ "b")) fy_size.FY_NT none none) := rfl
  refine ⟨?_, by decide, by decide, by decide⟩
  simp only [emit, e1, fy_emit_event_eq, emit_engine_error, add_error]
  split_ifs <;> simp [lyaml_emitter.fresh]

/-- C7 (the code at the failing input): on a fresh emitter, emit of an ALIAS
event table without an anchor field records no error and submits to the
engine an ALIAS event whose anchor is the value of a variable that was never
written; emit returns true when the engine accepts it. -/
theorem emit_ALIAS_without_anchor_submits
    (fy : σ → FyEmitEvent → Int × List String × σ) (h : σ) :
    (emit fy { type := some "ALIAS" } (lyaml_emitter.fresh h)).2.submitted =
      [FyEmitEvent.ALIAS CVar.indeterminate fy_size.FY_NT] ∧
    (emit fy { type := some "ALIAS" } (lyaml_emitter.fresh h)).1 =
      (if (fy h (FyEmitEvent.ALIAS CVar.indeterminate fy_size.FY_NT)).1 = 0
       then EmitReturn.ok
       else EmitReturn.fail "libfyaml emit failed") := by
  have e1 : emit_dispatch fy { type := some "ALIAS" } (lyaml_emitter.fresh h) =
      fy_emit_event fy (lyaml_emitter.fresh h)
        (FyEmitEvent.ALIAS CVar.indeterminate fy_size.FY_NT) := rfl
  have e2 : emit_finalize { type := some "ALIAS" } = false := rfl
  have e3 : ("" : String) ++ "libfyaml emit failed" = "libfyaml emit failed" := rfl
  by_cases hrc : (fy h (FyEmitEvent.ALIAS CVar.indeterminate fy_size.FY_NT)).1 = 0
  · simp only [emit, e1, e2, fy_emit_event_eq, emit_engine_error]
    simp [add_error, lyaml_emitter.fresh, hrc, e3]
  · simp only [emit, e1, e2, fy_emit_event_eq, emit_engine_error]
    simp [add_error, lyaml_emitter.fresh, hrc, e3]

/-- C9 (the code at the failing input): on a fresh emitter, emit of a
STREAM_START event with encoding LATIN1 records the encoding error, then
emit_STREAM_START returns -1, which emit records as a second error: the
counter is 2, the error buffer holds both messages, the assertion
emitter->error == 1 fails and nothing is returned. No event is submitted. -/
theorem emit_STREAM_START_bad_encoding_fails_assertion
    (fy : σ → FyEmitEvent → Int × List String × σ) (h : σ) :
    (emit fy { type := some "STREAM_START", encoding := some "LATIN1" }
        (lyaml_emitter.fresh h)).1 = EmitReturn.assertFailed ∧
    (emit fy { type := some "STREAM_START", encoding := some "LATIN1" }
        (lyaml_emitter.fresh h)).2.error = 2 ∧
    (emit fy { type := some "STREAM_START", encoding := some "LATIN1" }
        (lyaml_emitter.fresh h)).2.errbuff =
      "invalid stream encoding 'LATIN1'libfyaml emit failed" ∧
    (emit fy { type := some "STREAM_START", encoding := some "LATIN1" }
        (lyaml_emitter.fresh h)).2.submitted = [] :=
  ⟨rfl, rfl, rfl, rfl⟩

theorem cstr_BLOCK : cstr "BLOCK" = "BLOCK" := by decide

theorem cstr_FLOW : cstr "FLOW" = "FLOW" := by decide

/-- C6, counterexample: the style token ANY is not accepted. For a
MAPPING_START and for a SEQUENCE_START event with style ANY the style
validation records one InvalidOption error and selects no style; and a style
that is not one of the tokens, BLOCK followed by a zero byte and x, records
no error. -/
theorem style_token_ANY_is_rejected :
    ((emit_MAPPING_START_style { style := some "ANY" } (lyaml_emitter.fresh ())).2.error = 1 ∧
     (emit_MAPPING_START_style { style := some "ANY" } (lyaml_emitter.fresh ())).2.errbuff =
       "invalid mapping style 'ANY'" ∧
     (emit_MAPPING_START_style { style := some "ANY" } (lyaml_emitter.fresh ())).1 =
       CVar.indeterminate) ∧
    ((emit_SEQUENCE_START_style { style := some "ANY" } (lyaml_emitter.fresh ())).2.error = 1 ∧
     (emit_SEQUENCE_START_style { style := some "ANY" } (lyaml_emitter.fresh ())).2.errbuff =
       "invalid sequence style 'ANY'" ∧
     (emit_SEQUENCE_START_style { style := some "ANY" } (lyaml_emitter.fresh ())).1 =
       CVar.indeterminate) ∧
    ((emit_MAPPING_START_style { style := some ("BLOCK" ++ String.mk [NUL] ++ "x") }
        (lyaml_emitter.fresh ())).2.error = 0 ∧
     (emit_MAPPING_START_style { style := some ("BLOCK" ++ String.mk [NUL] ++ "x") }
        (lyaml_emitter.fresh ())).1 = CVar.init fy_node_style.FYNS_BLOCK) := by
  decide

/-- C6, amended: for MAPPING_START and SEQUENCE_START events, style
validation records no InvalidOption error if and only if the style field is
absent or its C string (its bytes before the first zero byte) is exactly BLOCK
or exactly FLOW; an absent style selects the style ANY of the engine, BLOCK
selects BLOCK, FLOW selects FLOW, and every other style, the token ANY
included, selects nothing and records the error. -/
theorem style_validation_accepts_BLOCK_FLOW_or_absent
    (t : EventTable) (em : lyaml_emitter σ) :
    ((emit_MAPPING_START_style t em).2.error = em.error ↔
      (t.style = none ∨ ∃ s, t.style = some s ∧ (cstr s = "BLOCK" ∨ cstr s = "FLOW"))) ∧
    ((emit_SEQUENCE_START_style t em).2.error = em.error ↔
      (t.style = none ∨ ∃ s, t.style = some s ∧ (cstr s = "BLOCK" ∨ cstr s = "FLOW"))) ∧
    (emit_MAPPING_START_style t em).1 =
      (match t.style with
       | none => CVar.init fy_node_style.FYNS_ANY
       | some s =>
         if cstr s = "BLOCK" then CVar.init fy_node_style.FYNS_BLOCK
         else if cstr s = "FLOW" then CVar.init fy_node_style.FYNS_FLOW
         else CVar.indeterminate) ∧
    (emit_SEQUENCE_START_style t em).1 =
      (match t.style with
       | none => CVar.init fy_node_style.FYNS_ANY
       | some s =>
         if cstr s = "BLOCK" then CVar.init fy_node_style.FYNS_BLOCK
         else if cstr s = "FLOW" then CVar.init fy_node_style.FYNS_FLOW
         else CVar.indeterminate) := by
  cases hs : t.style with
  | none =>
    simp [emit_MAPPING_START_style, emit_SEQUENCE_START_style, RAWGET_STRDUP, hs]
  | some s =>
    simp only [emit_MAPPING_START_style, emit_SEQUENCE_START_style, RAWGET_STRDUP, hs,
      Option.map_some', STREQ_strdup, cstr_BLOCK, cstr_FLOW]
    by_cases hb : cstr s = "BLOCK"
    · simp [hb]
    · by_cases hf : cstr s = "FLOW"
      · simp [hb, hf]
      · simp [hb, hf, add_error]

/-- The success half of the return contract of emit: on an emitter reached from a fresh one by any calls `ts`, with
the error counter at 0, when the event records no error and rc is 0, emit
returns the single value true if the type is not STREAM_END, and true with the
concatenation of all chunks handed to append_output since the emitter was
created if the type is STREAM_END. -/
theorem emit_success_returns
    (fy : σ → FyEmitEvent → Int × List String × σ) (h : σ)
    (ts : List EventTable) (t : EventTable)
    (hvalid : (emit_dispatch fy t (emit_all fy ts (lyaml_emitter.fresh h)).2).2.error = 0)
    (hrc : (emit_dispatch fy t (emit_all fy ts (lyaml_emitter.fresh h)).2).1 = 0) :
    (emit fy t (emit_all fy ts (lyaml_emitter.fresh h)).2).1 =
      (if emit_finalize t = true then
        EmitReturn.okText
          (String.join (emit fy t (emit_all fy ts (lyaml_emitter.fresh h)).2).2.written)
       else EmitReturn.ok) := by
  obtain ⟨c2, hy2, hw2⟩ := OutputExtends.emit fy t (emit_all fy ts (lyaml_emitter.fresh h)).2
  have hjoin : (emit fy t (emit_all fy ts (lyaml_emitter.fresh h)).2).2.yamlbuff =
      String.join (emit fy t (emit_all fy ts (lyaml_emitter.fresh h)).2).2.written := by
    rw [hy2, hw2, join_append, yamlbuff_eq_join_written]
  have hs := emit_snd fy t (emit_all fy ts (lyaml_emitter.fresh h)).2
  have he : emit_engine_error (emit_dispatch fy t (emit_all fy ts (lyaml_emitter.fresh h)).2) =
      (emit_dispatch fy t (emit_all fy ts (lyaml_emitter.fresh h)).2).2 := by
    simp [emit_engine_error, hrc]
  rw [hs, he] at hjoin
  rw [hs, he]
  unfold emit
  simp only [he, hvalid]
  by_cases hf : emit_finalize t = true
  · simp [hf, hjoin]
  · simp [hf]

/-- An instance of the success half: STREAM_START, a SCALAR and STREAM_END on
an engine that writes the scalar text and a document end marker. -/
theorem emit_success_returns_example :
    (emit fy_echo { type := some "STREAM_END" }
        (emit_all fy_echo [{ type := some "STREAM_START" },
            { type := some "SCALAR", value := some "hello" }]
          (lyaml_emitter.fresh ())).2).1 = EmitReturn.okText "hello\n...\n" := by
  decide

/-- The accepted encodings: on a fresh emitter, emit of a
STREAM_START event whose encoding is absent or exactly UTF8 submits exactly one
event to the engine, a STREAM_START event. -/
theorem emit_STREAM_START_submits_once
    (fy : σ → FyEmitEvent → Int × List String × σ) (h : σ) (t : EventTable)
    (htype : t.type = some "STREAM_START")
    (henc : t.encoding = none ∨ t.encoding = some "UTF8") :
    (emit fy t (lyaml_emitter.fresh h)).2.submitted = [FyEmitEvent.STREAM_START] := by
  have hd : emit_dispatch fy t (lyaml_emitter.fresh h) =
      emit_STREAM_START fy t (lyaml_emitter.fresh h) := by
    unfold emit_dispatch
    rw [htype]
    rfl
  have hs : emit_STREAM_START fy t (lyaml_emitter.fresh h) =
      fy_emit_event fy (lyaml_emitter.fresh h) FyEmitEvent.STREAM_START := by
    unfold emit_STREAM_START
    rcases henc with henc | henc
    · rw [henc]
      rfl
    · rw [henc]
      rfl
  rw [emit_snd, hd, hs, fy_emit_event_eq]
  unfold emit_engine_error
  split_ifs <;> simp [add_error, lyaml_emitter.fresh]

/-- An instance: a STREAM_START event with encoding UTF8. -/
theorem emit_STREAM_START_submits_once_example :
    (emit fy_accept { type := some "STREAM_START", encoding := some "UTF8" }
        (lyaml_emitter.fresh ())).2.submitted = [FyEmitEvent.STREAM_START] :=
  emit_STREAM_START_submits_once fy_accept ()
    { type := some "STREAM_START", encoding := some "UTF8" } rfl (Or.inr rfl)

/-- C14 (the code at the failing input): for the tag_directives table that
holds one list element and one more element under the key x, lua_objlen is 1:
tag_directives is allocated with 1 element and tag_directivesp with 2. The loop
over lua_next visits both entries: it writes tag_directives[0] and
tag_directives[1], the second outside the array, and tag_directivesp[0],
tag_directivesp[1] and then the terminating NULL at tag_directivesp[2],
outside the array. The engine is handed two directives, not the one element
of the list. -/
theorem emit_DOCUMENT_START_writes_past_objlen
    (fy : σ → FyEmitEvent → Int × List String × σ) (h : σ) :
    lua_objlen
      [(LuaKey.int 1, ({ handle := some "!", pfx := some "a" } : TagDirective)),
       (LuaKey.str "x", { handle := some "!x!", pfx := some "b" })] = 1 ∧
    tag_directives_alloca
      [(LuaKey.int 1, { handle := some "!", pfx := some "a" }),
       (LuaKey.str "x", { handle := some "!x!", pfx := some "b" })] = (2, 1) ∧
    (tag_directives_writes
      [(LuaKey.int 1, { handle := some "!", pfx := some "a" }),
       (LuaKey.str "x", { handle := some "!x!", pfx := some "b" })]).element_writes = [0, 1] ∧
    (tag_directives_writes
      [(LuaKey.int 1, { handle := some "!", pfx := some "a" }),
       (LuaKey.str "x", { handle := some "!x!", pfx := some "b" })]).pointer_writes =
      [0, 1, 2] ∧
    (emit fy
      { type := some "DOCUMENT_START",
        tag_directives := some
          [(LuaKey.int 1, { handle := some "!", pfx := some "a" }),
           (LuaKey.str "x", { handle := some "!x!", pfx := some "b" })] }
      (lyaml_emitter.fresh h)).2.submitted =
      [FyEmitEvent.DOCUMENT_START true none
        (some [{ handle := CVar.init "!", pfx := CVar.init "a" },
               { handle := CVar.init "!x!", pfx := CVar.init "b" }])] := by
  refine ⟨by decide, by decide, by decide, by decide, ?_⟩
  have hd : emit_dispatch fy
      { type := some "DOCUMENT_START",
        tag_directives := some
          [(LuaKey.int 1, { handle := some "!", pfx := some "a" }),
           (LuaKey.str "x", { handle := some "!x!", pfx := some "b" })] }
      (lyaml_emitter.fresh h) =
      fy_emit_event fy (lyaml_emitter.fresh h)
        (FyEmitEvent.DOCUMENT_START true none
          (some [{ handle := CVar.init "!", pfx := CVar.init "a" },
                 { handle := CVar.init "!x!", pfx := CVar.init "b" }])) := rfl
  rw [emit_snd, hd, fy_emit_event_eq]
  unfold emit_engine_error
  split_ifs <;> simp [add_error, lyaml_emitter.fresh]

/-- The tables for which the arrays of emit_DOCUMENT_START suffice: for a
tag_directives table that is a Lua sequence of n elements, lua_objlen is n, the
arrays have n and n + 1 elements, every element write has an index below n,
every pointer write has an index of at most n, and the loop hands n directives
to the engine. -/
theorem emit_DOCUMENT_START_sequence_in_bounds (xs : List TagDirective)
    (st : TagLoop σ) :
    lua_objlen (lua_sequence xs) = xs.length ∧
    tag_directives_alloca (lua_sequence xs) = (xs.length + 1, xs.length) ∧
    (∀ i ∈ (tag_directives_writes (lua_sequence xs)).element_writes, i < xs.length) ∧
    (∀ i ∈ (tag_directives_writes (lua_sequence xs)).pointer_writes, i ≤ xs.length) ∧
    ((lua_sequence xs).foldl tag_directives_step st).tags.length =
      st.tags.length + xs.length := by
  have hlen : (lua_sequence xs).length = xs.length := lua_sequence_from_length 0 xs
  refine ⟨lua_objlen_sequence xs, ?_, ?_, ?_, ?_⟩
  · simp [tag_directives_alloca, lua_objlen_sequence]
  · intro i hi
    rw [tag_directives_writes_eq, hlen] at hi
    exact List.mem_range.mp hi
  · intro i hi
    rw [tag_directives_writes_eq, hlen] at hi
    exact Nat.lt_succ_iff.mp (List.mem_range.mp hi)
  · rw [tag_directives_loop_tags_length, hlen]

end EmitterTheorems

/-! ## Lemmas on the decoder -/

section ParserLemmas

variable {π : Type}

theorem find_filter_append_self (f : List (LuaKey × LuaValue)) (k : LuaKey) (v : LuaValue) :
    (f.filter (fun e => !decide (e.1 = k)) ++ [(k, v)]).find? (fun e => decide (e.1 = k)) =
      some (k, v) := by
  induction f with
  | nil =>
    rw [List.filter_nil, List.nil_append]
    exact List.find?_cons_of_pos _ (by simp)
  | cons a as ih =>
    by_cases h : a.1 = k
    · rw [List.filter_cons_of_neg (by simp [h])]
      exact ih
    · rw [List.filter_cons_of_pos (by simp [h]), List.cons_append,
        List.find?_cons_of_neg _ (by simp [h])]
      exact ih

theorem find_filter_append_ne (f : List (LuaKey × LuaValue)) (k k2 : LuaKey) (v : LuaValue)
    (hne : k ≠ k2) :
    (f.filter (fun e => !decide (e.1 = k)) ++ [(k, v)]).find? (fun e => decide (e.1 = k2)) =
      f.find? (fun e => decide (e.1 = k2)) := by
  induction f with
  | nil =>
    rw [List.filter_nil, List.nil_append, List.find?_cons_of_neg _ (by simp [hne])]
  | cons a as ih =>
    by_cases h : a.1 = k
    · have h2 : ¬ a.1 = k2 := by
        rw [h]
        exact hne
      rw [List.filter_cons_of_neg (by simp [h]), List.find?_cons_of_neg _ (by simp [h2])]
      exact ih
    · rw [List.filter_cons_of_pos (by simp [h]), List.cons_append]
      by_cases h2 : a.1 = k2
      · rw [List.find?_cons_of_pos _ (by simp [h2]), List.find?_cons_of_pos _ (by simp [h2])]
      · rw [List.find?_cons_of_neg _ (by simp [h2]), List.find?_cons_of_neg _ (by simp [h2])]
        exact ih

theorem lua_rawget_rawset_self (f : List (LuaKey × LuaValue)) (k : LuaKey) (v : LuaValue) :
    lua_rawget (lua_rawset f k v) k = v := by
  unfold lua_rawget lua_rawset
  rw [find_filter_append_self]

theorem lua_rawget_rawset_ne (f : List (LuaKey × LuaValue)) (k k2 : LuaKey) (v : LuaValue)
    (hne : k ≠ k2) :
    lua_rawget (lua_rawset f k v) k2 = lua_rawget f k2 := by
  unfold lua_rawget lua_rawset
  rw [find_filter_append_ne f k k2 v hne]

/-- Setting a key other than type leaves the type field. -/
theorem rawget_type_rawset (f : List (LuaKey × LuaValue)) (k : String) (v : LuaValue)
    (hk : k ≠ "type") :
    lua_rawget (lua_rawset f (LuaKey.str k) v) (LuaKey.str "type") =
      lua_rawget f (LuaKey.str "type") := by
  apply lua_rawget_rawset_ne
  intro h
  exact hk (LuaKey.str.inj h)

/-- The type field of a new event table. -/
theorem parser_push_eventtable_type (e : fy_event) (v : String) :
    lua_rawget (parser_push_eventtable e v) (LuaKey.str "type") = LuaValue.string v := by
  unfold parser_push_eventtable parser_set_mark
  simp only []
  rw [rawget_type_rawset _ _ _ (by decide), rawget_type_rawset _ _ _ (by decide)]
  exact lua_rawget_rawset_self _ _ _

theorem RAWSET_STRING_type (f : List (LuaKey × LuaValue)) (k v : String) (hk : k ≠ "type") :
    lua_rawget (RAWSET_STRING f k v) (LuaKey.str "type") = lua_rawget f (LuaKey.str "type") :=
  rawget_type_rawset f k _ hk

theorem RAWSET_BOOLEAN_type (f : List (LuaKey × LuaValue)) (k : String) (b : Bool)
    (hk : k ≠ "type") :
    lua_rawget (RAWSET_BOOLEAN f k b) (LuaKey.str "type") = lua_rawget f (LuaKey.str "type") :=
  rawget_type_rawset f k _ hk

theorem parse_STREAM_START_type (e : fy_event) :
    lua_rawget (parse_STREAM_START e) (LuaKey.str "type") = LuaValue.string "STREAM_START" := by
  unfold parse_STREAM_START
  rw [RAWSET_STRING_type _ _ _ (by decide), parser_push_eventtable_type]

theorem parse_DOCUMENT_START_table_type (e : fy_event) :
    lua_rawget (parse_DOCUMENT_START_table e) (LuaKey.str "type") =
      LuaValue.string "DOCUMENT_START" := by
  unfold parse_DOCUMENT_START_table
  simp only []
  have h1 : lua_rawget
      (RAWSET_BOOLEAN (parser_push_eventtable e "DOCUMENT_START") "implicit" e.implicit)
      (LuaKey.str "type") = LuaValue.string "DOCUMENT_START" := by
    rw [RAWSET_BOOLEAN_type _ _ _ (by decide), parser_push_eventtable_type]
  cases e.version with
  | none =>
    cases e.tag_directives with
    | nil => exact h1
    | cons d ds =>
      simp only []
      rw [rawget_type_rawset _ _ _ (by decide)]
      exact h1
  | some ver =>
    cases e.tag_directives with
    | nil =>
      simp only []
      rw [rawget_type_rawset _ _ _ (by decide)]
      exact h1
    | cons d ds =>
      simp only []
      rw [rawget_type_rawset _ _ _ (by decide), rawget_type_rawset _ _ _ (by decide)]
      exact h1

theorem parse_DOCUMENT_END_type (e : fy_event) :
    lua_rawget (parse_DOCUMENT_END e) (LuaKey.str "type") = LuaValue.string "DOCUMENT_END" := by
  unfold parse_DOCUMENT_END
  rw [RAWSET_BOOLEAN_type _ _ _ (by decide), parser_push_eventtable_type]

theorem parse_ALIAS_type (e : fy_event) (anchor : String) (ha : e.anchor = some anchor) :
    ∃ fields, parse_ALIAS e = IterReturn.value (LuaValue.table fields) ∧
      lua_rawget fields (LuaKey.str "type") = LuaValue.string "ALIAS" := by
  unfold parse_ALIAS
  rw [ha]
  refine ⟨_, rfl, ?_⟩
  rw [RAWSET_STRING_type _ _ _ (by decide), parser_push_eventtable_type]

theorem parse_SCALAR_type (e : fy_event) (style : String)
    (hs : parse_SCALAR_style e.sstyle = Except.ok style) :
    ∃ fields, parse_SCALAR e = IterReturn.value (LuaValue.table fields) ∧
      lua_rawget fields (LuaKey.str "type") = LuaValue.string "SCALAR" := by
  unfold parse_SCALAR
  rw [hs]
  refine ⟨_, rfl, ?_⟩
  rw [RAWSET_STRING_type _ _ _ (by decide), RAWSET_BOOLEAN_type _ _ _ (by decide),
    RAWSET_BOOLEAN_type _ _ _ (by decide), RAWSET_STRING_type _ _ _ (by decide),
    RAWSET_STRING_type _ _ _ (by decide), RAWSET_STRING_type _ _ _ (by decide),
    parser_push_eventtable_type]

theorem parse_SEQUENCE_START_type (e : fy_event) (style : String)
    (hs : parse_node_style e.nstyle = Except.ok style) :
    ∃ fields, parse_SEQUENCE_START e = IterReturn.value (LuaValue.table fields) ∧
      lua_rawget fields (LuaKey.str "type") = LuaValue.string "SEQUENCE_START" := by
  unfold parse_SEQUENCE_START
  rw [hs]
  refine ⟨_, rfl, ?_⟩
  rw [RAWSET_STRING_type _ _ _ (by decide), RAWSET_BOOLEAN_type _ _ _ (by decide),
    RAWSET_STRING_type _ _ _ (by decide), RAWSET_STRING_type _ _ _ (by decide),
    parser_push_eventtable_type]

theorem parse_MAPPING_START_type (e : fy_event) (style : String)
    (hs : parse_node_style e.nstyle = Except.ok style) :
    ∃ fields, parse_MAPPING_START e = IterReturn.value (LuaValue.table fields) ∧
      lua_rawget fields (LuaKey.str "type") = LuaValue.string "MAPPING_START" := by
  unfold parse_MAPPING_START
  rw [hs]
  refine ⟨_, rfl, ?_⟩
  rw [RAWSET_STRING_type _ _ _ (by decide), RAWSET_BOOLEAN_type _ _ _ (by decide),
    RAWSET_STRING_type _ _ _ (by decide), RAWSET_STRING_type _ _ _ (by decide),
    parser_push_eventtable_type]

theorem parse_node_style_ok (e : fy_event)
    (h : (match e.nstyle with
      | fy_node_style.other _ => false
      | _ => true) = true) :
    ∃ style, parse_node_style e.nstyle = Except.ok style := by
  cases hn : e.nstyle with
  | FYNS_ANY => exact ⟨_, rfl⟩
  | FYNS_FLOW => exact ⟨_, rfl⟩
  | FYNS_BLOCK => exact ⟨_, rfl⟩
  | other n => simp [hn] at h

theorem parse_SCALAR_style_ok (e : fy_event)
    (h : (match e.sstyle with
      | fy_scalar_style.other _ => false
      | _ => true) = true) :
    ∃ style, parse_SCALAR_style e.sstyle = Except.ok style := by
  cases hn : e.sstyle with
  | other n => simp [hn] at h
  | _ => exact ⟨_, rfl⟩

theorem parser_delete_event_handle (p : lyaml_parser_t π) :
    (parser_delete_event p).parser = p.parser := by
  unfold parser_delete_event
  cases p.event <;> rfl

theorem lua_string_field_RAWSET_STRING_self (f : List (LuaKey × LuaValue)) (k v : String) :
    lua_string_field (RAWSET_STRING f k v) k = some v := by
  unfold lua_string_field RAWSET_STRING
  rw [lua_rawget_rawset_self]

theorem lua_string_field_of_rawget (f : List (LuaKey × LuaValue)) (k v : String)
    (h : lua_rawget f (LuaKey.str k) = LuaValue.string v) :
    lua_string_field f k = some v := by
  unfold lua_string_field
  rw [h]

theorem parse_SCALAR_fields (e : fy_event) (style : String)
    (hs : parse_SCALAR_style e.sstyle = Except.ok style) :
    lua_string_field (parse_SCALAR e).fields "type" = some "SCALAR" ∧
    lua_string_field (parse_SCALAR e).fields "style" = some style := by
  obtain ⟨fields, hf, ht⟩ := parse_SCALAR_type e style hs
  constructor
  · rw [hf]
    exact lua_string_field_of_rawget _ _ _ ht
  · unfold parse_SCALAR
    rw [hs]
    exact lua_string_field_RAWSET_STRING_self _ _ _

theorem parse_SEQUENCE_START_fields (e : fy_event) (style : String)
    (hs : parse_node_style e.nstyle = Except.ok style) :
    lua_string_field (parse_SEQUENCE_START e).fields "type" = some "SEQUENCE_START" ∧
    lua_string_field (parse_SEQUENCE_START e).fields "style" = some style := by
  obtain ⟨fields, hf, ht⟩ := parse_SEQUENCE_START_type e style hs
  constructor
  · rw [hf]
    exact lua_string_field_of_rawget _ _ _ ht
  · unfold parse_SEQUENCE_START
    rw [hs]
    exact lua_string_field_RAWSET_STRING_self _ _ _

theorem parse_MAPPING_START_fields (e : fy_event) (style : String)
    (hs : parse_node_style e.nstyle = Except.ok style) :
    lua_string_field (parse_MAPPING_START e).fields "type" = some "MAPPING_START" ∧
    lua_string_field (parse_MAPPING_START e).fields "style" = some style := by
  obtain ⟨fields, hf, ht⟩ := parse_MAPPING_START_type e style hs
  constructor
  · rw [hf]
    exact lua_string_field_of_rawget _ _ _ ht
  · unfold parse_MAPPING_START
    rw [hs]
    exact lua_string_field_RAWSET_STRING_self _ _ _

/-- The style validation of emit_SCALAR on a table whose style is the name
the decoder gives to a scalar style: an error is recorded exactly for ANY. -/
theorem emit_SCALAR_style_decoded {σ : Type} (t : EventTable) (em : lyaml_emitter σ)
    (sstyle : fy_scalar_style) (style : String)
    (hs : parse_SCALAR_style sstyle = Except.ok style) (ht : t.style = some style) :
    (emit_SCALAR_style t em).2.error = em.error ↔ sstyle ≠ fy_scalar_style.FYSS_ANY := by
  have hc : emit_SCALAR_style t em = emit_SCALAR_style { style := t.style } em := rfl
  rw [hc, ht]
  cases sstyle with
  | other n => simp [parse_SCALAR_style] at hs
  | FYSS_ANY =>
    simp only [parse_SCALAR_style, Except.ok.injEq] at hs
    subst hs
    have h1 : (emit_SCALAR_style { style := some "ANY" } em).2.error = em.error + 1 := rfl
    rw [h1]
    simp
  | FYSS_PLAIN =>
    simp only [parse_SCALAR_style, Except.ok.injEq] at hs
    subst hs
    have h1 : (emit_SCALAR_style { style := some "PLAIN" } em).2.error = em.error := rfl
    simp [h1]
  | FYSS_SINGLE_QUOTED =>
    simp only [parse_SCALAR_style, Except.ok.injEq] at hs
    subst hs
    have h1 : (emit_SCALAR_style { style := some "SINGLE_QUOTED" } em).2.error = em.error := rfl
    simp [h1]
  | FYSS_DOUBLE_QUOTED =>
    simp only [parse_SCALAR_style, Except.ok.injEq] at hs
    subst hs
    have h1 : (emit_SCALAR_style { style := some "DOUBLE_QUOTED" } em).2.error = em.error := rfl
    simp [h1]
  | FYSS_LITERAL =>
    simp only [parse_SCALAR_style, Except.ok.injEq] at hs
    subst hs
    have h1 : (emit_SCALAR_style { style := some "LITERAL" } em).2.error = em.error := rfl
    simp [h1]
  | FYSS_FOLDED =>
    simp only [parse_SCALAR_style, Except.ok.injEq] at hs
    subst hs
    have h1 : (emit_SCALAR_style { style := some "FOLDED" } em).2.error = em.error := rfl
    simp [h1]

/-- The style validation of emit_MAPPING_START and emit_SEQUENCE_START on a
table whose style is the name the decoder gives to a node style: an error
is recorded exactly for ANY. -/
theorem emit_node_style_decoded {σ : Type} (t : EventTable) (em : lyaml_emitter σ)
    (nstyle : fy_node_style) (style : String)
    (hs : parse_node_style nstyle = Except.ok style) (ht : t.style = some style) :
    ((emit_MAPPING_START_style t em).2.error = em.error ↔ nstyle ≠ fy_node_style.FYNS_ANY) ∧
    ((emit_SEQUENCE_START_style t em).2.error = em.error ↔
      nstyle ≠ fy_node_style.FYNS_ANY) := by
  have hm : emit_MAPPING_START_style t em = emit_MAPPING_START_style { style := t.style } em :=
    rfl
  have hq : emit_SEQUENCE_START_style t em =
      emit_SEQUENCE_START_style { style := t.style } em := rfl
  rw [hm, hq, ht]
  cases nstyle with
  | other n => simp [parse_node_style] at hs
  | FYNS_ANY =>
    simp only [parse_node_style, Except.ok.injEq] at hs
    subst hs
    have h1 : (emit_MAPPING_START_style { style := some "ANY" } em).2.error = em.error + 1 := rfl
    have h2 : (emit_SEQUENCE_START_style { style := some "ANY" } em).2.error = em.error + 1 :=
      rfl
    rw [h1, h2]
    simp
  | FYNS_BLOCK =>
    simp only [parse_node_style, Except.ok.injEq] at hs
    subst hs
    have h1 : (emit_MAPPING_START_style { style := some "BLOCK" } em).2.error = em.error := rfl
    have h2 : (emit_SEQUENCE_START_style { style := some "BLOCK" } em).2.error = em.error := rfl
    simp [h1, h2]
  | FYNS_FLOW =>
    simp only [parse_node_style, Except.ok.injEq] at hs
    subst hs
    have h1 : (emit_MAPPING_START_style { style := some "FLOW" } em).2.error = em.error := rfl
    have h2 : (emit_SEQUENCE_START_style { style := some "FLOW" } em).2.error = em.error := rfl
    simp [h1, h2]

end ParserLemmas

/-! ## Theorems on the decoder -/

section ParserTheorems

variable {π : Type}

/-- C10: when the engine returns the low-level event `e` to event_iter, then:
if the kind of `e` is one of the ten named kinds (and an ALIAS event has an
anchor, a SCALAR, SEQUENCE_START or MAPPING_START event has a style with a
name), the value returned is a table whose type field is the string naming
that kind; if the kind is the sentinel FYET_NONE, the value returned is nil;
for any other kind value an error is raised, no value is returned. -/
theorem event_iter_returns
    (fy_parser_parse : π → Option fy_event × π) (p : lyaml_parser_t π)
    (e : fy_event) (s : π)
    (hparse : fy_parser_parse (parser_delete_event p).parser = (some e, s)) :
    (∀ name, e.type.name = some name → e.recognized = true →
      ∃ fields, (event_iter fy_parser_parse p).1 = IterReturn.value (LuaValue.table fields) ∧
        lua_rawget fields (LuaKey.str "type") = LuaValue.string name) ∧
    (e.type = fy_event_type.FYET_NONE →
      (event_iter fy_parser_parse p).1 = IterReturn.value LuaValue.nil) ∧
    (∀ n, e.type = fy_event_type.other n →
      (event_iter fy_parser_parse p).1 = IterReturn.error ("invalid event " ++ toString n)) := by
  refine ⟨?_, ?_, ?_⟩
  · intro name hname hrec
    unfold event_iter
    simp only [hparse]
    unfold fy_event.recognized at hrec
    cases ht : e.type with
    | FYET_NONE => simp [fy_event_type.name, ht] at hname
    | other n => simp [fy_event_type.name, ht] at hname
    | FYET_STREAM_START =>
      simp only [fy_event_type.name, ht, Option.some.injEq] at hname
      subst hname
      exact ⟨_, rfl, parse_STREAM_START_type e⟩
    | FYET_STREAM_END =>
      simp only [fy_event_type.name, ht, Option.some.injEq] at hname
      subst hname
      exact ⟨_, rfl, parser_push_eventtable_type e _⟩
    | FYET_DOCUMENT_START =>
      simp only [fy_event_type.name, ht, Option.some.injEq] at hname
      subst hname
      exact ⟨_, rfl, parse_DOCUMENT_START_table_type e⟩
    | FYET_DOCUMENT_END =>
      simp only [fy_event_type.name, ht, Option.some.injEq] at hname
      subst hname
      exact ⟨_, rfl, parse_DOCUMENT_END_type e⟩
    | FYET_MAPPING_START =>
      simp only [fy_event_type.name, ht, Option.some.injEq] at hname
      subst hname
      rw [ht] at hrec
      obtain ⟨style, hs⟩ := parse_node_style_ok e hrec
      exact parse_MAPPING_START_type e style hs
    | FYET_MAPPING_END =>
      simp only [fy_event_type.name, ht, Option.some.injEq] at hname
      subst hname
      exact ⟨_, rfl, parser_push_eventtable_type e _⟩
    | FYET_SEQUENCE_START =>
      simp only [fy_event_type.name, ht, Option.some.injEq] at hname
      subst hname
      rw [ht] at hrec
      obtain ⟨style, hs⟩ := parse_node_style_ok e hrec
      exact parse_SEQUENCE_START_type e style hs
    | FYET_SEQUENCE_END =>
      simp only [fy_event_type.name, ht, Option.some.injEq] at hname
      subst hname
      exact ⟨_, rfl, parser_push_eventtable_type e _⟩
    | FYET_SCALAR =>
      simp only [fy_event_type.name, ht, Option.some.injEq] at hname
      subst hname
      rw [ht] at hrec
      obtain ⟨style, hs⟩ := parse_SCALAR_style_ok e hrec
      exact parse_SCALAR_type e style hs
    | FYET_ALIAS =>
      simp only [fy_event_type.name, ht, Option.some.injEq] at hname
      subst hname
      rw [ht] at hrec
      obtain ⟨anchor, ha⟩ := Option.isSome_iff_exists.mp hrec
      exact parse_ALIAS_type e anchor ha
  · intro ht
    unfold event_iter
    simp only [hparse, ht]
  · intro n ht
    unfold event_iter
    simp only [hparse, ht]

/-- C10, witness: the engine returns an ALIAS event with the anchor a. -/
theorem event_iter_returns_witness :
    fy_parse_list [{ type := fy_event_type.FYET_ALIAS, anchor := some "a" }] =
      (some { type := fy_event_type.FYET_ALIAS, anchor := some "a" }, []) ∧
    ∃ fields,
      (event_iter fy_parse_list
        (lyaml_parser_t.fresh [{ type := fy_event_type.FYET_ALIAS, anchor := some "a" }])).1 =
          IterReturn.value (LuaValue.table fields) ∧
      lua_rawget fields (LuaKey.str "type") = LuaValue.string "ALIAS" :=
  ⟨rfl,
   (event_iter_returns fy_parse_list
      (lyaml_parser_t.fresh [{ type := fy_event_type.FYET_ALIAS, anchor := some "a" }])
      { type := fy_event_type.FYET_ALIAS, anchor := some "a" } [] rfl).1 "ALIAS" rfl rfl⟩

/-- C13, counterexample: the decoder gives the style name ANY to a SCALAR
event with the scalar style ANY and to a MAPPING_START or SEQUENCE_START event
with the node style ANY; given to emit, each of these tables records the
InvalidOption error for its style field, and emit of the scalar table returns
false with that message on an engine that accepts every event. -/
theorem decoded_style_ANY_is_rejected :
    (EventTable.ofLua (event_iter fy_parse_list (lyaml_parser_t.fresh
        [{ type := fy_event_type.FYET_SCALAR, sstyle := fy_scalar_style.FYSS_ANY,
           value := some "x" }])).1.fields).style = some "ANY" ∧
    (emit_SCALAR_style
      (EventTable.ofLua (event_iter fy_parse_list (lyaml_parser_t.fresh
        [{ type := fy_event_type.FYET_SCALAR, sstyle := fy_scalar_style.FYSS_ANY,
           value := some "x" }])).1.fields)
      (lyaml_emitter.fresh ())).2.error = 1 ∧
    (emit fy_accept
      (EventTable.ofLua (event_iter fy_parse_list (lyaml_parser_t.fresh
        [{ type := fy_event_type.FYET_SCALAR, sstyle := fy_scalar_style.FYSS_ANY,
           value := some "x" }])).1.fields)
      (lyaml_emitter.fresh ())).1 = EmitReturn.fail "invalid scalar style 'ANY'" ∧
    (emit_MAPPING_START_style
      (EventTable.ofLua (event_iter fy_parse_list (lyaml_parser_t.fresh
        [{ type := fy_event_type.FYET_MAPPING_START,
           nstyle := fy_node_style.FYNS_ANY }])).1.fields)
      (lyaml_emitter.fresh ())).2.errbuff = "invalid mapping style 'ANY'" ∧
    (emit_SEQUENCE_START_style
      (EventTable.ofLua (event_iter fy_parse_list (lyaml_parser_t.fresh
        [{ type := fy_event_type.FYET_SEQUENCE_START,
           nstyle := fy_node_style.FYNS_ANY }])).1.fields)
      (lyaml_emitter.fresh ())).2.errbuff = "invalid sequence style 'ANY'" := by
  decide

/-- C13, amended: when the engine returns a SCALAR, MAPPING_START or
SEQUENCE_START event with a style that has a name, the table the iterator
returns has the type field of that kind, and, given to emit, it records no
InvalidOption error for its style field if and only if the style of the event
is not ANY: the names PLAIN, SINGLE_QUOTED, DOUBLE_QUOTED, LITERAL, FOLDED for
scalars and BLOCK, FLOW for collections pass, the name ANY is rejected. -/
theorem decoded_style_passes_unless_ANY {σ : Type}
    (fy_parser_parse : π → Option fy_event × π) (p : lyaml_parser_t π)
    (e : fy_event) (s : π) (em : lyaml_emitter σ)
    (hparse : fy_parser_parse (parser_delete_event p).parser = (some e, s))
    (hrec : e.recognized = true) :
    (e.type = fy_event_type.FYET_SCALAR →
      (EventTable.ofLua (event_iter fy_parser_parse p).1.fields).type = some "SCALAR" ∧
      ((emit_SCALAR_style (EventTable.ofLua (event_iter fy_parser_parse p).1.fields)
          em).2.error = em.error ↔ e.sstyle ≠ fy_scalar_style.FYSS_ANY)) ∧
    (e.type = fy_event_type.FYET_MAPPING_START →
      (EventTable.ofLua (event_iter fy_parser_parse p).1.fields).type =
        some "MAPPING_START" ∧
      ((emit_MAPPING_START_style (EventTable.ofLua (event_iter fy_parser_parse p).1.fields)
          em).2.error = em.error ↔ e.nstyle ≠ fy_node_style.FYNS_ANY)) ∧
    (e.type = fy_event_type.FYET_SEQUENCE_START →
      (EventTable.ofLua (event_iter fy_parser_parse p).1.fields).type =
        some "SEQUENCE_START" ∧
      ((emit_SEQUENCE_START_style (EventTable.ofLua (event_iter fy_parser_parse p).1.fields)
          em).2.error = em.error ↔ e.nstyle ≠ fy_node_style.FYNS_ANY)) := by
  unfold fy_event.recognized at hrec
  refine ⟨?_, ?_, ?_⟩
  · intro ht
    rw [ht] at hrec
    obtain ⟨style, hs⟩ := parse_SCALAR_style_ok e hrec
    have hi : (event_iter fy_parser_parse p).1 = parse_SCALAR e := by
      unfold event_iter
      simp only [hparse, ht]
    rw [hi]
    obtain ⟨h1, h2⟩ := parse_SCALAR_fields e style hs
    exact ⟨h1, emit_SCALAR_style_decoded _ em e.sstyle style hs h2⟩
  · intro ht
    rw [ht] at hrec
    obtain ⟨style, hs⟩ := parse_node_style_ok e hrec
    have hi : (event_iter fy_parser_parse p).1 = parse_MAPPING_START e := by
      unfold event_iter
      simp only [hparse, ht]
    rw [hi]
    obtain ⟨h1, h2⟩ := parse_MAPPING_START_fields e style hs
    exact ⟨h1, (emit_node_style_decoded _ em e.nstyle style hs h2).1⟩
  · intro ht
    rw [ht] at hrec
    obtain ⟨style, hs⟩ := parse_node_style_ok e hrec
    have hi : (event_iter fy_parser_parse p).1 = parse_SEQUENCE_START e := by
      unfold event_iter
      simp only [hparse, ht]
    rw [hi]
    obtain ⟨h1, h2⟩ := parse_SEQUENCE_START_fields e style hs
    exact ⟨h1, (emit_node_style_decoded _ em e.nstyle style hs h2).2⟩

/-- C13, witness of the amended claim: a SCALAR event with the style PLAIN is
decoded to a table that passes the style validation of emit. -/
theorem decoded_style_passes_unless_ANY_witness :
    (EventTable.ofLua (event_iter fy_parse_list (lyaml_parser_t.fresh
        [{ type := fy_event_type.FYET_SCALAR, sstyle := fy_scalar_style.FYSS_PLAIN,
           value := some "x" }])).1.fields).type = some "SCALAR" ∧
    (emit_SCALAR_style
      (EventTable.ofLua (event_iter fy_parse_list (lyaml_parser_t.fresh
        [{ type := fy_event_type.FYET_SCALAR, sstyle := fy_scalar_style.FYSS_PLAIN,
           value := some "x" }])).1.fields)
      (lyaml_emitter.fresh ())).2.error = (lyaml_emitter.fresh ()).error :=
  ⟨((decoded_style_passes_unless_ANY fy_parse_list
      (lyaml_parser_t.fresh
        [{ type := fy_event_type.FYET_SCALAR, sstyle := fy_scalar_style.FYSS_PLAIN,
           value := some "x" }])
      { type := fy_event_type.FYET_SCALAR, sstyle := fy_scalar_style.FYSS_PLAIN,
        value := some "x" } [] (lyaml_emitter.fresh ()) rfl rfl).1 rfl).1,
   (((decoded_style_passes_unless_ANY fy_parse_list
      (lyaml_parser_t.fresh
        [{ type := fy_event_type.FYET_SCALAR, sstyle := fy_scalar_style.FYSS_PLAIN,
           value := some "x" }])
      { type := fy_event_type.FYET_SCALAR, sstyle := fy_scalar_style.FYSS_PLAIN,
        value := some "x" } [] (lyaml_emitter.fresh ()) rfl rfl).1 rfl).2).2 (by decide)⟩

end ParserTheorems

end Lyaml
